import Mathlib

/-!
Shallow embedding of the cross-channel return/inventory reconciliation engine
(src/sync-scheduler.js) of the bluepie-inventory repository.

Conventions of the embedding:
* Timestamps are natural numbers; ISO-8601 string comparison in the source is
  order-isomorphic to comparison of the instants, so `Nat` order models it.
  All clock reads inside one cycle are collapsed to the single instant
  `env.now` (the source reads the clock several times within a cycle; no
  claim depends on the sub-cycle drift).
* The MySQL tables become lists: `inventory`, `sync_log`, `product_mapping`,
  `sales_orders`; `sync_config` becomes an association list from keys to a
  value type `CVal` distinguishing plain strings, timestamps and the JSON
  array used for the retry ledger (the source serializes all three into the
  same TEXT column; the encodings are injective, so distinguishing them in
  the model is faithful).
* SQL `SELECT ... LIMIT 1` is `List.find?` (first row in table order);
  `LIKE CONCAT(ch, x, ch)` is substring containment; `UPDATE ... WHERE id = ?`
  maps over the list; `INSERT` appends.  Free-text log messages, which no
  code path ever reads back, are not carried in the log-entry model.
* The marketplace adapters (§6 of the spec: smartstore.js, coupang.js,
  zigzag.js) are external collaborators; their responses and failures are
  supplied by an environment value `Env`, exactly at the call sites where
  the scheduler awaits them.  A network call that throws is an `Except.error`
  or outcome flag in the environment.
* JavaScript truthiness on the strings involved: a string is falsy iff
  empty, so `if (x)` becomes `x != ""`; a nullable DB column is an `Option`,
  and `!item.channel_product_no` (NULL or empty) becomes `linkAbsent`.
* All recursion is structural (fuel bounded by a list length or a time
  difference where the source loops), so every definition evaluates by
  `decide`/`rfl` on concrete inputs.
-/

namespace Bluepie

abbrev Time := Nat

/-- JavaScript whitespace as relevant to `trim` and the regex class used by
the scheduler (ASCII part; product names contain no exotic spaces). -/
def isJsSpace (c : Char) : Bool :=
  c == ' ' || c == '\t' || c == '\n' || c == '\r' || c == '\x0b' || c == '\x0c'

def isAsciiAlpha (c : Char) : Bool :=
  ('a' ≤ c && c ≤ 'z') || ('A' ≤ c && c ≤ 'Z')

/-- `String.prototype.trim`: drop whitespace from both ends. -/
def jsTrim (s : String) : String :=
  String.mk (((s.toList.dropWhile isJsSpace).reverse.dropWhile isJsSpace).reverse)

/-- Rest of the list after the first occurrence of `cls`, if any. -/
def dropThrough (cls : Char) : List Char → Option (List Char)
  | [] => none
  | c :: rest => if c == cls then some rest else dropThrough cls rest

/-- One lazy global delimiter-removal pass, as in
`str.replace(/\[.*?\]/g, "")`: from each unconsumed opener, everything up to
and including the nearest closer is dropped; an opener without a closer is
kept.  Structural via a fuel argument that starts at the list length. -/
def stripDelimFuel (opn cls : Char) : Nat → List Char → List Char
  | 0, l => l
  | _ + 1, [] => []
  | fuel + 1, c :: rest =>
    if c == opn then
      match dropThrough cls rest with
      | some rest2 => stripDelimFuel opn cls fuel rest2
      | none => c :: stripDelimFuel opn cls fuel rest
    else c :: stripDelimFuel opn cls fuel rest

def stripDelim (opn cls : Char) (s : String) : String :=
  String.mk (stripDelimFuel opn cls s.toList.length s.toList)

def stripBrackets (s : String) : String := stripDelim '[' ']' s

def stripParens (s : String) : String := stripDelim '(' ')' s

/-- Store product-name normalization:
`productName.replace(bracketed, "").replace(parenthesized, "").trim()`. -/
def cleanNameOf (productName : String) : String :=
  jsTrim (stripParens (stripBrackets productName))

/-- Brand code: `cleanName.match(manual 2-letter-then-space pattern)`,
lowercased, else the empty string. -/
def brandOf (cleanName : String) : String :=
  match cleanName.toList with
  | c0 :: c1 :: c2 :: _ =>
    if isAsciiAlpha c0 && isAsciiAlpha c1 && isJsSpace c2 then
      String.mk [c0.toLower, c1.toLower]
    else ""
  | _ => ""

/-- Keyword remainder: strip a leading two-letter brand prefix plus the
whitespace run after it, then trim. -/
def keywordsOf (cleanName : String) : String :=
  match cleanName.toList with
  | c0 :: c1 :: c2 :: rest =>
    if isAsciiAlpha c0 && isAsciiAlpha c1 && isJsSpace c2 then
      jsTrim (String.mk ((c2 :: rest).dropWhile isJsSpace))
    else jsTrim cleanName
  | _ => jsTrim cleanName

def prefixMatch : List Char → List Char → Bool
  | [], _ => true
  | _ :: _, [] => false
  | a :: as, b :: bs => a == b && prefixMatch as bs

def subListMatch (needle : List Char) : List Char → Bool
  | [] => needle.isEmpty
  | b :: bs => prefixMatch needle (b :: bs) || subListMatch needle bs

/-- SQL `hay LIKE CONCAT(wildcard, needle, wildcard)` as substring
containment. -/
def containsSub (hay needle : String) : Bool :=
  subListMatch needle.toList hay.toList

/-- Keep-first deduplication, the semantics of `[...new Set(list)]`. -/
def dedupAux (seen : List String) : List String → List String
  | [] => []
  | x :: xs =>
    if seen.contains x then dedupAux seen xs
    else x :: dedupAux (seen ++ [x]) xs

def dedupKeepFirst (l : List String) : List String := dedupAux [] l

/-! ## Data model -/

/-- A `sync_config` value.  The source stores strings, ISO timestamps and a
JSON-serialized string array in one TEXT column; the constructors keep the
three uses apart. -/
inductive CVal
  | str (v : String)
  | time (t : Time)
  | ids (l : List String)
  deriving DecidableEq

/-- One `inventory` row (canonical stock record).  `link` is the
`channel_product_no` column, `updatedAt` the `updated_at` column, which the
schema declares `DATETIME DEFAULT NULL` with no automatic update. -/
structure InvRecord where
  id : Nat
  name : String
  color : String
  qty : Int
  brand : String
  link : Option String
  updatedAt : Option Time
  deriving DecidableEq

/-- One `sync_log` row (audit entry).  The free-text `message` column is
never read back by the engine and is omitted. -/
structure LogEntry where
  runId : String
  type : String
  storeFrom : Option String
  storeTo : Option String
  pid : Option String
  cpn : Option String
  name : Option String
  popt : Option String
  qty : Int
  status : String
  deriving DecidableEq

/-- One `product_mapping` row (secondary listing mapping), keyed by
(`store_a_channel_product_no`, `store_a_option_name`). -/
structure Mapping where
  aNo : String
  aOption : String
  bNo : Option String
  status : String
  deriving DecidableEq

/-- One normalized returned-order detail, the value the extraction helpers
(`extractProductName` and friends) produce from the duck-typed adapter
responses; `optionName` uses the empty string for a missing option and
`channelProductNo` the empty string for an absent product id, matching the
`|| default` chains in the source. -/
structure Detail where
  productOrderId : String
  productName : String
  optionName : String
  quantity : Int
  channelProductNo : String
  deriving DecidableEq

/-- `detail.quantity || 1`. -/
def extractQty (d : Detail) : Int :=
  if d.quantity == 0 then 1 else d.quantity

/-- One row of the sales ledger model: `sales_orders` is keyed by the
globally unique `product_order_id`. -/
structure SalesRow where
  pid : String
  qty : Int
  deriving DecidableEq

structure RunResult where
  skipped : Bool
  detected : Nat
  processed : Nat
  errors : Nat
  deriving DecidableEq

def skippedResult : RunResult := ⟨true, 0, 0, 0⟩

/-- The whole persistent + in-memory scheduler state. -/
structure St where
  inventory : List InvRecord
  nextInvId : Nat
  syncLog : List LogEntry
  mappings : List Mapping
  sales : List (String × String)
  config : List (String × CVal)
  isRunning : Bool
  hasClients : Bool
  lastRunResult : Option RunResult
  deriving DecidableEq

/-! ## Config and audit-store access -/

def getConfig (st : St) (k : String) : Option CVal :=
  (st.config.find? (fun p => p.1 == k)).map (fun p => p.2)

def setConfig (st : St) (k : String) (v : CVal) : St :=
  if st.config.any (fun p => p.1 == k) then
    { st with config := st.config.map (fun p => if p.1 == k then (k, v) else p) }
  else
    { st with config := st.config ++ [(k, v)] }

def getTime (st : St) (k : String) : Option Time :=
  match getConfig st k with
  | some (.time t) => some t
  | _ => none

def logSync (st : St) (e : LogEntry) : St :=
  { st with syncLog := st.syncLog ++ [e] }

/-- The tier-0 idempotency probe: a `sync_log` row with
`type = 'inventory_update'`, the given `product_order_id` and
`status = 'success'`. -/
def hasSuccessLog (st : St) (pid : String) : Bool :=
  st.syncLog.any fun e =>
    e.type == "inventory_update" && e.pid == some pid && e.status == "success"

/-! ## Retry ledger -/

def getPendingRetryOrders (st : St) : List String :=
  match getConfig st "pending_retry_orders" with
  | some (.ids l) => l
  | _ => []

def addPendingRetryOrders (st : St) (ids : List String) : St :=
  setConfig st "pending_retry_orders"
    (.ids (dedupKeepFirst (getPendingRetryOrders st ++ ids)))

def removePendingRetryOrder (st : St) (pid : String) : St :=
  if pid == "" then st
  else
    let existing := getPendingRetryOrders st
    let filtered := existing.filter (fun x => x != pid)
    if filtered.length != existing.length then
      setConfig st "pending_retry_orders" (.ids filtered)
    else st

/-! ## Canonical matcher (the return-to-inventory path of
`updateInventoryFromReturn`) -/

inductive Tier
  | direct
  | exact
  | fuzzy
  deriving DecidableEq

def Tier.str : Tier → String
  | .direct => "direct"
  | .exact => "exact"
  | .fuzzy => "fuzzy"

/-- `!item.channel_product_no`: the column is NULL or empty. -/
def linkAbsent : Option String → Bool
  | none => true
  | some s => s == ""

/-- Tier-1 lookup: by `channel_product_no`, narrowed by exact color first,
then without narrowing (the second query runs when the first found
nothing or was skipped for an empty color). -/
def directLookup (inv : List InvRecord) (cpn color : String) : Option InvRecord :=
  match (if color != "" then inv.find? (fun i => i.link == some cpn && i.color == color) else none) with
  | some r => some r
  | none => inv.find? (fun i => i.link == some cpn)

/-- Tiers 1-3 in strict order: direct link, exact normalized text, fuzzy
substring; each tier runs only when every earlier one yields no row. -/
def matchedRecord (inv : List InvRecord) (cpn color cleanName keywords : String) :
    Option (Tier × InvRecord) :=
  match (if cpn != "" then directLookup inv cpn color else none) with
  | some r => some (.direct, r)
  | none =>
    match inv.find? (fun i => i.name == cleanName && i.color == color) with
    | some r => some (.exact, r)
    | none =>
      match (if keywords != "" && color != "" then
               inv.find? (fun i => containsSub i.name keywords && containsSub i.color color)
             else none) with
      | some r => some (.fuzzy, r)
      | none => none

/-- Manual-edit detection: the watermark exists, the row has been mutated,
and strictly after the watermark. -/
def manualEdited (lastSync : Option Time) (r : InvRecord) : Bool :=
  match lastSync, r.updatedAt with
  | some wm, some tu => decide (wm < tu)
  | _, _ => false

/-- The matcher decision, before any write. -/
inductive Decision
  | noName
  | dupSkip
  | manualSkip (t : Tier) (item : InvRecord)
  | doUpdate (t : Tier) (item : InvRecord)
  | doCreate (name color brand : String) (link : Option String)
  deriving DecidableEq

/-- The decision component of `updateInventoryFromReturn` (source lines
255-417): guards, then tiers 1-3, then manual-edit detection, then the
new-registration fallback.  The writes the source interleaves with the
decision are applied by `applyDecision` below, branch for branch. -/
def matcherDecide (st : St) (pid cpn productName optionName : String) : Decision :=
  let color := jsTrim optionName
  if productName == "" then .noName
  else if pid != "" && hasSuccessLog st pid then .dupSkip
  else
    let cleanName := cleanNameOf productName
    let keywords := keywordsOf cleanName
    let lastSync := getTime st "last_sync_time"
    match matchedRecord st.inventory cpn color cleanName keywords with
    | some (t, item) =>
      if manualEdited lastSync item then .manualSkip t item else .doUpdate t item
    | none =>
      let newName := if cleanName != "" then cleanName else jsTrim productName
      .doCreate newName (if color != "" then color else "기본") (brandOf cleanName)
        (if cpn != "" then some cpn else none)

/-- The outcome value `updateInventoryFromReturn` returns to its caller. -/
inductive InvResult
  | nullRes
  | skippedDup
  | skippedManual (inventoryId : Nat)
  | updated (matchType : String) (inventoryId : Nat) (oldQty newQty : Int)
  | created (inventoryId : Nat) (name color : String) (qty : Int)
  deriving DecidableEq

/-- `UPDATE inventory SET qty = ?, updated_at = NOW() WHERE id = ?`. -/
def setQty (inv : List InvRecord) (i : Nat) (v : Int) (now : Time) : List InvRecord :=
  inv.map fun r => if r.id == i then { r with qty := v, updatedAt := some now } else r

/-- `UPDATE inventory SET channel_product_no = ? WHERE id = ?` (the
link-only update does not touch `updated_at`). -/
def setLink (inv : List InvRecord) (i : Nat) (cpn : String) : List InvRecord :=
  inv.map fun r => if r.id == i then { r with link := some cpn } else r

/-- `UPDATE inventory SET qty = ?, updated_at = NOW(), channel_product_no = ?
WHERE id = ?`. -/
def setQtyLink (inv : List InvRecord) (i : Nat) (v : Int) (cpn : String) (now : Time) :
    List InvRecord :=
  inv.map fun r =>
    if r.id == i then { r with qty := v, updatedAt := some now, link := some cpn } else r

/-- Progressive-linking condition of the text tiers:
`channelProductNo && !item.channel_product_no`, and only there (the direct
tier never rewrites the link). -/
def wantsLink (t : Tier) (cpn : String) (item : InvRecord) : Bool :=
  !(t == Tier.direct) && cpn != "" && linkAbsent item.link

/-- Apply a matcher decision: the writes (inventory mutation plus one
`inventory_update` audit row) each branch of the source performs. -/
def applyDecision (now : Time) (st : St) (runId pid cpn productName optionName : String)
    (qty : Int) (d : Decision) : St × InvResult :=
  match d with
  | .noName => (st, .nullRes)
  | .dupSkip => (st, .skippedDup)
  | .manualSkip t item =>
    let st1 :=
      if wantsLink t cpn item then
        { st with inventory := setLink st.inventory item.id cpn }
      else st
    (logSync st1 ⟨runId, "inventory_update", none, none, some pid, some cpn,
        some productName, some optionName, qty, "success"⟩,
     .skippedManual item.id)
  | .doUpdate t item =>
    let newQty := item.qty + qty
    let inv :=
      if wantsLink t cpn item then setQtyLink st.inventory item.id newQty cpn now
      else setQty st.inventory item.id newQty now
    (logSync { st with inventory := inv } ⟨runId, "inventory_update", none, none,
        some pid, some cpn, some productName, some optionName, qty, "success"⟩,
     .updated t.str item.id item.qty newQty)
  | .doCreate name color brand link =>
    let r : InvRecord := ⟨st.nextInvId, name, color, qty, brand, link, none⟩
    (logSync { st with inventory := st.inventory ++ [r], nextInvId := st.nextInvId + 1 }
        ⟨runId, "inventory_update", none, none, some pid, some cpn,
         some productName, some optionName, qty, "success"⟩,
     .created r.id name color qty)

/-- `updateInventoryFromReturn` (source lines 255-425): the canonical
matcher plus its writes.  The surrounding try/catch only converts database
errors, which the embedding does not model, into a fail log row. -/
def updateInventoryFromReturn (now : Time) (st : St)
    (runId pid cpn productName optionName : String) (qty : Int) : St × InvResult :=
  applyDecision now st runId pid cpn productName optionName qty
    (matcherDecide st pid cpn productName optionName)

/-! ## Secondary-storefront propagation (`processReturnedItem`) -/

/-- How a Store-B API call failed: a distinguishable not-found (404), or
anything else. -/
inductive BErr
  | notFound
  | other
  deriving DecidableEq

/-- An observable mutation performed on the secondary storefront. -/
inductive BAction
  | stockIncreaseB (bNo : String)
  | listingCreateB (newNo : String)
  deriving DecidableEq

/-- Outcome of the copy-and-create path chosen by the environment:
the source listing could not be fetched (the source logs a failure and
returns normally), the listing was created with the given new product
number, or the creation threw. -/
inductive CreateOutcome
  | noSource
  | createdNo (newNo : String)
  | failed
  deriving DecidableEq

/-- Per-item adapter outcomes: the result of the stock-increase call on the
mapped Store-B listing (`none` = success) and of the copy-and-create path. -/
structure ItemEnv where
  increase : Option BErr
  create : CreateOutcome

def saveMapping (st : St) (aNo aOption bNo status : String) : St :=
  if st.mappings.any (fun m => m.aNo == aNo && m.aOption == aOption) then
    { st with mappings := st.mappings.map fun m =>
        if m.aNo == aNo && m.aOption == aOption then
          { m with bNo := some bNo, status := status }
        else m }
  else
    { st with mappings := st.mappings ++ [⟨aNo, aOption, some bNo, status⟩] }

def resetMapping (st : St) (aNo aOption : String) : St :=
  { st with mappings := st.mappings.filter fun m => !(m.aNo == aNo && m.aOption == aOption) }

/-- `mapping.store_b_channel_product_no` is truthy. -/
def bNoPresent : Option String → Bool
  | none => false
  | some s => s != ""

/-- `increaseStoreB`: on success one `qty_increase` success row and the
performed mutation; on failure a fail row and the error for the caller. -/
def increaseStoreB (st : St) (runId bNo productName optionName : String) (qty : Int)
    (pid : String) (res : Option BErr) : St × List BAction × Option BErr :=
  match res with
  | none =>
    (logSync st ⟨runId, "qty_increase", some "A", some "B", some pid, some bNo,
        some productName, some optionName, qty, "success"⟩,
     [.stockIncreaseB bNo], none)
  | some e =>
    (logSync st ⟨runId, "qty_increase", some "A", some "B", some pid, some bNo,
        some productName, some optionName, qty, "fail"⟩,
     [], some e)

/-- `copyAndCreateInStoreB`: fetch the source listing, create a copy on
Store B, persist the mapping as matched.  The Boolean is the thrown flag
(the no-source branch logs a failure but returns normally). -/
def copyAndCreateInStoreB (st : St) (runId cpn productName optionName : String)
    (qty : Int) (pid : String) (co : CreateOutcome) : St × List BAction × Bool :=
  match co with
  | .noSource =>
    (logSync st ⟨runId, "product_create", some "A", some "B", some pid, some cpn,
        some productName, some optionName, qty, "fail"⟩, [], false)
  | .createdNo newNo =>
    let st1 := saveMapping st cpn optionName newNo "matched"
    (logSync st1 ⟨runId, "product_create", some "A", some "B", some pid, some newNo,
        some productName, some optionName, qty, "success"⟩,
     [.listingCreateB newNo], false)
  | .failed =>
    (logSync st ⟨runId, "product_create", some "A", some "B", some pid, some cpn,
        some productName, some optionName, qty, "fail"⟩, [], true)

/-- Result of processing one returned item: the state, the secondary-side
mutations performed, whether the item threw (to be caught per item by the
cycle), and the inventory outcome when the item reached that step. -/
structure ItemOut where
  st : St
  trace : List BAction
  threw : Bool
  inv : Option InvResult

/-- `processReturnedItem` (source lines 208-251): mapping lookup, Store-B
stock increase with stale-mapping (404) recovery into copy-and-create, then
the return-to-inventory step.  The inventory step is wrapped in its own
try/catch in the source and never propagates. -/
def processReturnedItem (now : Time) (st : St) (runId : String) (d : Detail)
    (ienv : ItemEnv) : ItemOut :=
  let productName := d.productName
  let optionName := d.optionName
  let qty := extractQty d
  let pid := d.productOrderId
  let cpn := d.channelProductNo
  let finishInv : St → List BAction → ItemOut := fun st tr =>
    let out := updateInventoryFromReturn now st runId pid cpn productName optionName qty
    ⟨out.1, tr, false, some out.2⟩
  let viaCreate : St → ItemOut := fun st =>
    match copyAndCreateInStoreB st runId cpn productName optionName qty pid ienv.create with
    | (st3, tr, false) => finishInv st3 tr
    | (st3, _, true) => ⟨st3, [], true, none⟩
  match st.mappings.find? (fun m => m.aNo == cpn && m.aOption == optionName) with
  | some m =>
    if m.status != "unmatched" && bNoPresent m.bNo then
      match increaseStoreB st runId (m.bNo.getD "") productName optionName qty pid ienv.increase with
      | (st1, tr, none) => finishInv st1 tr
      | (st1, _, some .notFound) => viaCreate (resetMapping st1 cpn optionName)
      | (st1, _, some .other) => ⟨st1, [], true, none⟩
    else viaCreate st
  | none => viaCreate st

/-! ## Sales collection (`fetchSalesData`) -/

/-- The 24-hour chunk size, in milliseconds. -/
def day : Nat := 86400000

/-- The cursor loop of the sales collectors: 24-hour windows from the
stored watermark (or one day back) up to now.  Fuel-structural; the fuel
`now - cursor` dominates the chunk count because every chunk advances the
cursor. -/
def chunkListFuel : Nat → Nat → Nat → List (Nat × Nat)
  | 0, _, _ => []
  | fuel + 1, cursor, now =>
    if cursor < now then
      (cursor, min (cursor + day) now) :: chunkListFuel fuel (min (cursor + day) now) now
    else []

def chunkList (cursor now : Nat) : List (Nat × Nat) :=
  chunkListFuel (now - cursor) cursor now

/-- `INSERT IGNORE INTO sales_orders`: insert-if-absent keyed by the unique
`product_order_id`; returns the number of rows actually inserted. -/
def insertSalesRows (st : St) (store : String) (rows : List SalesRow) : St × Nat :=
  rows.foldl
    (fun acc r =>
      if acc.1.sales.any (fun p => p.2 == r.pid) then acc
      else ({ acc.1 with sales := acc.1.sales ++ [(store, r.pid)] }, acc.2 + 1))
    (st, 0)

/-- One iteration of the chunk loop: the chunk pull sits in its own
try/catch, so its failure only skips that chunk. -/
def salesChunkStep (store : String) (chunk : Nat → Nat → Except Unit (List SalesRow))
    (acc : St × Nat) (c : Nat × Nat) : St × Nat :=
  match chunk c.1 c.2 with
  | .ok rows =>
    let out := insertSalesRows acc.1 store rows
    (out.1, acc.2 + out.2)
  | .error _ => acc

/-- One chunk-looped channel collector (Stores A, B and Coupang): each
chunk pull is wrapped in its own try/catch, so a failed chunk is skipped
and the loop continues; the watermark is then advanced unconditionally,
and a `sales_collect` row is written only when something was inserted. -/
def collectChunked (st : St) (runId store configKey : String) (now : Time)
    (chunk : Nat → Nat → Except Unit (List SalesRow)) : St :=
  let start := match getTime st configKey with
    | some t => t
    | none => now - day
  let acc := (chunkList start now).foldl (salesChunkStep store chunk) (st, 0)
  let st1 := setConfig acc.1 configKey (.time now)
  if acc.2 > 0 then
    logSync st1 ⟨runId, "sales_collect", some store, none, none, none, none, none,
      (acc.2 : Int), "success"⟩
  else st1

/-- The Zigzag collector: the single pull is NOT chunk-wrapped, so a pull
failure reaches the outer catch, which logs a fail row and leaves the
watermark untouched. -/
def collectZigzag (st : St) (runId : String) (now : Time) (keys : Bool)
    (pull : Except Unit (List SalesRow)) : St :=
  if keys then
    match pull with
    | .ok rows =>
      let out := insertSalesRows st "D" rows
      let st1 := setConfig out.1 "sales_last_fetch_d" (.time now)
      if out.2 > 0 then
        logSync st1 ⟨runId, "sales_collect", some "D", none, none, none, none, none,
          (out.2 : Int), "success"⟩
      else st1
    | .error _ =>
      logSync st ⟨runId, "sales_collect", some "D", none, none, none, none, none,
        0, "fail"⟩
  else st

/-! ## The reconciliation cycle (`runSync`) -/

/-- Environment of one cycle: the clock, the run id, and every adapter
response the cycle awaits.  `details` is the batch order-detail response as
an association from order-line id to its detail. -/
structure Env where
  now : Time
  runId : String
  fetchReturns : Except Unit (List String)
  detailsOk : Bool
  details : List (String × Detail)
  itemEnv : String → ItemEnv
  chunkA : Nat → Nat → Except Unit (List SalesRow)
  chunkB : Nat → Nat → Except Unit (List SalesRow)
  coupangKeys : Bool
  chunkC : Nat → Nat → Except Unit (List SalesRow)
  zigzagKeys : Bool
  zigzagPull : Except Unit (List SalesRow)

def detailOf (env : Env) (id : String) : Option Detail :=
  (env.details.find? (fun p => p.1 == id)).map (fun p => p.2)

/-- `fetchSalesData` (source lines 922-1114): the four channel collectors
in order; each runs inside its own try/catch, so one channel failing never
stops the next. -/
def fetchSalesData (st : St) (env : Env) : St :=
  if !st.hasClients then st
  else
    let st1 := collectChunked st env.runId "A" "sales_last_fetch_a" env.now env.chunkA
    let st2 := collectChunked st1 env.runId "B" "sales_last_fetch_b" env.now env.chunkB
    let st3 := if env.coupangKeys then
        collectChunked st2 env.runId "C" "sales_last_fetch_c" env.now env.chunkC
      else st2
    collectZigzag st3 env.runId env.now env.zigzagKeys env.zigzagPull

/-- Merge the retry ledger into the fetched ids, skipping ids already
present (the `includes` check of the source). -/
def mergeWork (fetched pending : List String) : List String :=
  pending.foldl (fun acc id => if acc.contains id then acc else acc ++ [id]) fetched

def workListOf (st : St) (fetched : List String) : List String :=
  mergeWork fetched (getPendingRetryOrders st)

/-- The `return_detect` audit row written before per-item processing. -/
def preLoopState (st : St) (runId : String) (n : Nat) : St :=
  logSync st ⟨runId, "return_detect", some "A", none, none, none, none, none,
    (n : Int), "success"⟩

structure LoopAcc where
  st : St
  failed : List String
  processed : Nat
  errors : Nat

/-- One iteration of the per-item loop: process, then on success count it
and prune the retry ledger; on a throw count the error, remember the id for
the ledger, and write an `error` audit row — then continue with the next
item. -/
def perItemStep (now : Time) (runId : String) (ienv : String → ItemEnv)
    (acc : LoopAcc) (d : Detail) : LoopAcc :=
  let out := processReturnedItem now acc.st runId d (ienv d.productOrderId)
  if out.threw then
    let st1 := logSync out.st ⟨runId, "error", some "A", some "B",
      some d.productOrderId, none, some d.productName, none, 0, "fail"⟩
    ⟨st1, acc.failed ++ (if d.productOrderId != "" then [d.productOrderId] else []),
     acc.processed, acc.errors + 1⟩
  else
    ⟨removePendingRetryOrder out.st d.productOrderId, acc.failed,
     acc.processed + 1, acc.errors⟩

def perItemLoop (now : Time) (runId : String) (ienv : String → ItemEnv)
    (details : List Detail) (st : St) : LoopAcc :=
  details.foldl (perItemStep now runId ienv) ⟨st, [], 0, 0⟩

/-- `runSync` (source lines 91-204): single-flight and credential guards,
return collection merged with the retry ledger, batch detail fetch,
sequential per-item processing with isolated failures, retry-ledger
rewrite, watermark advance, then sales collection.  A throw of the initial
fetch or of the batch detail fetch lands in the outer catch: an error row,
no watermark write.  The in-memory running flag is set for the duration and
cleared in the finally, so the state a completed call returns always has it
cleared. -/
def runSync (st : St) (env : Env) : St × RunResult :=
  if st.isRunning then (st, skippedResult)
  else if !st.hasClients then (st, skippedResult)
  else
    match env.fetchReturns with
    | .error _ =>
      let res : RunResult := ⟨false, 0, 0, 1⟩
      let st1 := logSync st ⟨env.runId, "error", some "A", none, none, none,
        none, none, 0, "fail"⟩
      ({ st1 with isRunning := false, lastRunResult := some res }, res)
    | .ok fetched =>
      let work := workListOf st fetched
      if work.isEmpty then
        let st1 := logSync st ⟨env.runId, "return_detect", some "A", none, none,
          none, none, none, 0, "success"⟩
        let st2 := setConfig st1 "last_sync_time" (.time env.now)
        let st3 := fetchSalesData st2 env
        let res : RunResult := ⟨false, 0, 0, 0⟩
        ({ st3 with isRunning := false, lastRunResult := some res }, res)
      else
        let st1 := preLoopState st env.runId work.length
        if !env.detailsOk then
          let res : RunResult := ⟨false, work.length, 0, 1⟩
          let st2 := logSync st1 ⟨env.runId, "error", some "A", none, none, none,
            none, none, 0, "fail"⟩
          ({ st2 with isRunning := false, lastRunResult := some res }, res)
        else
          let acc := perItemLoop env.now env.runId env.itemEnv
            (work.filterMap (detailOf env)) st1
          let st2 := if acc.failed.isEmpty then acc.st
            else addPendingRetryOrders acc.st acc.failed
          let st3 := setConfig st2 "last_sync_time" (.time env.now)
          let st4 := fetchSalesData st3 env
          let res : RunResult := ⟨false, work.length, acc.processed, acc.errors⟩
          ({ st4 with isRunning := false, lastRunResult := some res }, res)

/-! ## Invariants and reachability -/

/-- The quantity invariant of the data model: every canonical stock record
holds a non-negative quantity. -/
def InvQtyOK (st : St) : Prop := ∀ r ∈ st.inventory, 0 ≤ r.qty

/-- Environment well-formedness: every returned detail carries a positive
extracted quantity (ReturnEvent.quantity is a positive integer per the data
model; `extractQty` maps an absent quantity to 1). -/
def EnvWF (env : Env) : Prop := ∀ p ∈ env.details, 0 < extractQty p.2

/-- States the reconciliation engine can reach from `st0` by running
cycles with well-formed environments. -/
inductive EngineReach (st0 : St) : St → Prop
  | refl : EngineReach st0 st0
  | step (st : St) (env : Env) (h : EngineReach st0 st) (hwf : EnvWF env) :
      EngineReach st0 (runSync st env).1

/-! ## Concrete fixtures used by the witness theorems -/

/-- An empty baseline state with clients configured. -/
def emptySt : St :=
  { inventory := []
    nextInvId := 1
    syncLog := []
    mappings := []
    sales := []
    config := []
    isRunning := false
    hasClients := true
    lastRunResult := none }

/-- A state holding one canonical stock record, the scenario of §8 of the
spec. -/
def w1St0 : St :=
  { emptySt with
    inventory := [⟨1, "hm 니트", "블랙", 5, "hm", none, none⟩]
    nextInvId := 2 }

/-- The state after one successful processing of order line A-1. -/
def w1St : St :=
  (updateInventoryFromReturn 100 w1St0 "r1" "A-1" "" "hm 니트" "블랙" 2).1

/-- A trivial environment: nothing fetched, every adapter quiet. -/
def wEnvTrivial : Env :=
  { now := 100
    runId := "r"
    fetchReturns := .ok []
    detailsOk := true
    details := []
    itemEnv := fun _ => ⟨none, .failed⟩
    chunkA := fun _ _ => .ok []
    chunkB := fun _ _ => .ok []
    coupangKeys := false
    chunkC := fun _ _ => .ok []
    zigzagKeys := false
    zigzagPull := .ok [] }

/-- Manual-edit scenario of §8: watermark at 50, record last mutated at 80. -/
def w3St : St :=
  { emptySt with
    inventory := [⟨1, "hm 니트", "블랙", 5, "hm", none, some 80⟩]
    nextInvId := 2
    config := [("last_sync_time", .time 50)] }

/-- Tiering scenario of §8: a record linked to P1 (color 레드) and a second
record that matches the return text exactly but has no link. -/
def w4St : St :=
  { emptySt with
    inventory := [⟨1, "다른 이름", "레드", 3, "", some "P1", none⟩,
                  ⟨2, "hm 니트", "레드", 9, "hm", none, none⟩]
    nextInvId := 3 }

/-- A state with a stored sales watermark for store A. -/
def w10St : St :=
  { emptySt with config := [("sales_last_fetch_a", .time 5)] }

/-- A sales environment whose store-A pull fails on every chunk. -/
def w10Env : Env :=
  { wEnvTrivial with now := 10, chunkA := fun _ _ => .error () }

/-- Failing store-A pull, Coupang keys present, Zigzag keys present with a
failing Zigzag pull. -/
def w10EnvZ : Env :=
  { wEnvTrivial with
    now := 10
    chunkA := fun _ _ => .error ()
    coupangKeys := true
    zigzagKeys := true
    zigzagPull := .error () }

/-- Zigzag keys present with a successful pull. -/
def w10Env2 : Env :=
  { wEnvTrivial with now := 20, zigzagKeys := true, zigzagPull := .ok [] }

/-- A cycle whose initial return-listing fetch throws. -/
def w5EnvErr : Env :=
  { wEnvTrivial with fetchReturns := .error () }

/-- A cycle whose batch detail fetch throws. -/
def w5EnvDet : Env :=
  { wEnvTrivial with fetchReturns := .ok ["A-5"], detailsOk := false }

/-- Order line A-1 already has a successful stock-updated audit entry, and
its mapping points to Store-B listing B1. -/
def w7St : St :=
  { emptySt with
    syncLog := [⟨"r0", "inventory_update", none, none, some "A-1", some "P1",
      some "hm 니트", some "", 2, "success"⟩]
    mappings := [⟨"P1", "", some "B1", "matched"⟩] }

def w7d : Detail := ⟨"A-1", "hm 니트", "", 2, "P1"⟩

def w7ienv : ItemEnv := ⟨none, .failed⟩

/-- The per-item loop output of a cycle that reaches per-item processing:
the work list is the fetch merged with the retry ledger, and the loop
starts from the state holding the return-detect audit row. -/
def mainAcc (st : St) (env : Env) (fetched : List String) : LoopAcc :=
  perItemLoop env.now env.runId env.itemEnv
    ((workListOf st fetched).filterMap (detailOf env))
    (preLoopState st env.runId (workListOf st fetched).length)

/-- Retry-ledger scenario (§8): one stock record that the return matches
by exact text. -/
def w6St : St :=
  { emptySt with
    inventory := [⟨1, "hm 니트", "블랙", 5, "hm", none, none⟩]
    nextInvId := 2 }

def w6d : Detail := ⟨"A-6", "hm 니트", "블랙", 2, ""⟩

/-- Cycle 1: the secondary-storefront propagation (create path) throws. -/
def w6Env1 : Env :=
  { wEnvTrivial with
    now := 100
    fetchReturns := .ok ["A-6"]
    details := [("A-6", w6d)]
    itemEnv := fun _ => ⟨none, .failed⟩ }

/-- Cycle 2: nothing in the window, the propagation succeeds. -/
def w6Env2 : Env :=
  { wEnvTrivial with
    now := 200
    fetchReturns := .ok []
    details := [("A-6", w6d)]
    itemEnv := fun _ => ⟨none, .createdNo "B9"⟩ }

/-! ## Basic lemmas about the state operations -/

@[simp]
theorem logSync_config (st : St) (e : LogEntry) : (logSync st e).config = st.config := rfl

@[simp]
theorem logSync_inventory (st : St) (e : LogEntry) : (logSync st e).inventory = st.inventory := rfl

@[simp]
theorem logSync_mappings (st : St) (e : LogEntry) : (logSync st e).mappings = st.mappings := rfl

@[simp]
theorem logSync_syncLog (st : St) (e : LogEntry) : (logSync st e).syncLog = st.syncLog ++ [e] := rfl

@[simp]
theorem setConfig_inventory (st : St) (k : String) (v : CVal) :
    (setConfig st k v).inventory = st.inventory := by
  unfold setConfig; split <;> rfl

@[simp]
theorem setConfig_syncLog (st : St) (k : String) (v : CVal) :
    (setConfig st k v).syncLog = st.syncLog := by
  unfold setConfig; split <;> rfl

@[simp]
theorem setConfig_mappings (st : St) (k : String) (v : CVal) :
    (setConfig st k v).mappings = st.mappings := by
  unfold setConfig; split <;> rfl

theorem find_cons_pos {α : Type} (p : α → Bool) (a : α) (l : List α) (h : p a = true) :
    (a :: l).find? p = some a := by
  simp [List.find?, h]

theorem find_cons_neg {α : Type} (p : α → Bool) (a : α) (l : List α) (h : p a = false) :
    (a :: l).find? p = l.find? p := by
  simp [List.find?, h]

theorem find_replace_eq (l : List (String × CVal)) (k : String) (v : CVal)
    (h : l.any (fun p => p.1 == k) = true) :
    (l.map fun p => if p.1 == k then (k, v) else p).find? (fun p => p.1 == k)
      = some (k, v) := by
  induction l with
  | nil => simp at h
  | cons p ps ih =>
    rw [List.map_cons]
    by_cases hp : p.1 = k
    · have hb : (p.1 == k) = true := by simpa using hp
      rw [if_pos hb]
      exact find_cons_pos _ _ _ (by simp)
    · have hb : ¬((p.1 == k) = true) := by simpa using hp
      have hb0 : (p.1 == k) = false := by simpa using hp
      rw [if_neg hb, find_cons_neg (fun q => q.1 == k) p _ hb0]
      simp only [List.any_cons, hb0, Bool.false_or] at h
      exact ih h

theorem find_replace_ne (l : List (String × CVal)) (k k2 : String) (v : CVal)
    (hne : k2 ≠ k) :
    (l.map fun p => if p.1 == k then (k, v) else p).find? (fun p => p.1 == k2)
      = l.find? (fun p => p.1 == k2) := by
  induction l with
  | nil => rfl
  | cons p ps ih =>
    rw [List.map_cons]
    by_cases hp : p.1 = k
    · have hb : (p.1 == k) = true := by simpa using hp
      rw [if_pos hb]
      have h1 : ((((k, v) : String × CVal).1 == k2)) = false := by
        simpa using fun hh => hne hh.symm
      have h2 : (p.1 == k2) = false := by
        simp only [beq_eq_false_iff_ne, ne_eq, hp]
        exact fun hh => hne hh.symm
      rw [find_cons_neg (fun q => q.1 == k2) ((k, v) : String × CVal) _ h1,
        find_cons_neg (fun q => q.1 == k2) p _ h2, ih]
    · have hb : ¬((p.1 == k) = true) := by simpa using hp
      rw [if_neg hb]
      cases hp2 : (p.1 == k2) with
      | true =>
        rw [find_cons_pos (fun q => q.1 == k2) p _ hp2,
          find_cons_pos (fun q => q.1 == k2) p _ hp2]
      | false =>
        rw [find_cons_neg (fun q => q.1 == k2) p _ hp2,
          find_cons_neg (fun q => q.1 == k2) p _ hp2, ih]

theorem find_append_pair (l : List (String × CVal)) (x : String × CVal)
    (p : String × CVal → Bool) :
    (l ++ [x]).find? p = match l.find? p with
      | some r => some r
      | none => if p x then some x else none := by
  induction l with
  | nil => cases hpx : p x <;> simp [List.find?, hpx]
  | cons q qs ih =>
    cases hq : p q with
    | true => rw [List.cons_append, find_cons_pos p q _ hq, find_cons_pos p q _ hq]
    | false =>
      rw [List.cons_append, find_cons_neg p q _ hq, find_cons_neg p q _ hq, ih]

theorem getConfig_setConfig (st : St) (k k2 : String) (v : CVal) :
    getConfig (setConfig st k v) k2 = if k2 = k then some v else getConfig st k2 := by
  unfold getConfig setConfig
  split
  · rename_i hany
    by_cases hk : k2 = k
    · subst hk
      rw [find_replace_eq st.config k2 v hany]
      simp
    · rw [find_replace_ne st.config k k2 v hk]
      simp [hk]
  · rename_i hany
    have hnone : st.config.find? (fun p => p.1 == k) = none := by
      rw [List.find?_eq_none]
      intro x hx
      intro hpx
      exact hany (List.any_of_mem hx hpx)
    by_cases hk : k2 = k
    · subst hk
      rw [find_append_pair]
      simp [hnone]
    · have hb : ((k, v).1 == k2) = false := by simpa using fun hh => hk hh.symm
      rw [find_append_pair]
      simp only [hb, hk, if_false]
      cases st.config.find? (fun p => p.1 == k2) <;> simp

theorem getConfig_setConfig_self (st : St) (k : String) (v : CVal) :
    getConfig (setConfig st k v) k = some v := by
  simp [getConfig_setConfig]

theorem getConfig_setConfig_ne (st : St) (k k2 : String) (v : CVal) (h : k2 ≠ k) :
    getConfig (setConfig st k v) k2 = getConfig st k2 := by
  simp [getConfig_setConfig, h]

theorem foldl_preserve_mem {α β : Type} {P : α → Prop} {step : α → β → α} :
    ∀ (l : List β), (∀ a b, b ∈ l → P a → P (step a b)) → ∀ a, P a → P (l.foldl step a) := by
  intro l
  induction l with
  | nil => intro _ a ha; exact ha
  | cons x xs ih =>
    intro h a ha
    exact ih (fun a b hb => h a b (List.mem_cons_of_mem _ hb)) _
      (h a x (List.mem_cons_self _ _) ha)

theorem foldl_preserve {α β : Type} {P : α → Prop} {step : α → β → α}
    (l : List β) (h : ∀ a b, P a → P (step a b)) (a : α) (ha : P a) :
    P (l.foldl step a) :=
  foldl_preserve_mem l (fun a b _ => h a b) a ha

/-! ## Lemmas about the idempotency ledger and the matcher -/

theorem hasSuccessLog_logSync (st : St) (e : LogEntry) (pid : String) :
    hasSuccessLog (logSync st e) pid =
      (hasSuccessLog st pid ||
        (e.type == "inventory_update" && e.pid == some pid && e.status == "success")) := by
  simp [hasSuccessLog, logSync, List.any_append]

theorem hasSuccessLog_mono (st : St) (e : LogEntry) (pid : String)
    (h : hasSuccessLog st pid = true) : hasSuccessLog (logSync st e) pid = true := by
  simp [hasSuccessLog_logSync, h]

theorem matcherDecide_guard_dup (st : St) (pid cpn n o : String)
    (hn : n ≠ "") (hpid : pid ≠ "") (hdup : hasSuccessLog st pid = true) :
    matcherDecide st pid cpn n o = .dupSkip := by
  have hn' : (n == "") = false := by simpa using hn
  have hpid' : (pid != "") = true := by simpa using hpid
  simp [matcherDecide, hn', hpid', hdup]

theorem matcherDecide_open (st : St) (pid cpn n o : String) (hn : n ≠ "")
    (hguard : (pid != "" && hasSuccessLog st pid) = false) :
    matcherDecide st pid cpn n o =
      (match matchedRecord st.inventory cpn (jsTrim o) (cleanNameOf n)
          (keywordsOf (cleanNameOf n)) with
       | some (t, item) =>
         if manualEdited (getTime st "last_sync_time") item then Decision.manualSkip t item
         else Decision.doUpdate t item
       | none =>
         Decision.doCreate (if cleanNameOf n != "" then cleanNameOf n else jsTrim n)
           (if jsTrim o != "" then jsTrim o else "기본") (brandOf (cleanNameOf n))
           (if cpn != "" then some cpn else none)) := by
  have hn' : (n == "") = false := by simpa using hn
  simp [matcherDecide, hn', hguard]

theorem matcherDecide_ne_noName (st : St) (pid cpn n o : String) (hn : n ≠ "") :
    matcherDecide st pid cpn n o ≠ .noName := by
  intro h
  have hn' : (n == "") = false := by simpa using hn
  simp only [matcherDecide, hn', Bool.false_eq_true, if_false] at h
  split at h
  · simp at h
  · split at h
    · split at h <;> simp at h
    · simp at h

theorem matcherDecide_dupSkip_inv (st : St) (pid cpn n o : String)
    (h : matcherDecide st pid cpn n o = .dupSkip) : hasSuccessLog st pid = true := by
  simp only [matcherDecide] at h
  split at h
  · simp at h
  · split at h
    · rename_i hg
      simp only [Bool.and_eq_true] at hg
      exact hg.2
    · split at h
      · split at h <;> simp at h
      · simp at h

theorem matcherDecide_doUpdate_inv (st : St) (pid cpn n o : String) (t : Tier)
    (item : InvRecord) (h : matcherDecide st pid cpn n o = .doUpdate t item) :
    matchedRecord st.inventory cpn (jsTrim o) (cleanNameOf n)
      (keywordsOf (cleanNameOf n)) = some (t, item) := by
  simp only [matcherDecide] at h
  split at h
  · simp at h
  · split at h
    · simp at h
    · split at h
      · rename_i tp rp heq
        split at h
        · simp at h
        · obtain ⟨h1, h2⟩ := Decision.doUpdate.inj h
          rw [← h1, ← h2]
          exact heq
      · simp at h

theorem directLookup_mem (inv : List InvRecord) (cpn color : String) (r : InvRecord)
    (h : directLookup inv cpn color = some r) : r ∈ inv := by
  simp only [directLookup] at h
  split at h
  · rename_i r2 heq
    split at heq
    · cases h
      exact List.mem_of_find?_eq_some heq
    · cases heq
  · exact List.mem_of_find?_eq_some h

theorem matchedRecord_mem (inv : List InvRecord) (cpn color cn kw : String) (t : Tier)
    (item : InvRecord) (h : matchedRecord inv cpn color cn kw = some (t, item)) :
    item ∈ inv := by
  simp only [matchedRecord] at h
  split at h
  · rename_i r heq
    cases h
    split at heq
    · exact directLookup_mem inv cpn color item heq
    · cases heq
  · split at h
    · rename_i r heq
      cases h
      exact List.mem_of_find?_eq_some heq
    · split at h
      · rename_i r heq
        cases h
        split at heq
        · exact List.mem_of_find?_eq_some heq
        · cases heq
      · cases h

/-! ## Field-preservation lemmas for the engine operations -/

theorem applyDecision_config (now : Time) (st : St) (runId pid cpn n o : String)
    (qty : Int) (d : Decision) :
    (applyDecision now st runId pid cpn n o qty d).1.config = st.config := by
  cases d with
  | noName => rfl
  | dupSkip => rfl
  | manualSkip t item =>
    dsimp only [applyDecision]
    split <;> rfl
  | doUpdate t item => rfl
  | doCreate a b c l => rfl

theorem applyDecision_mappings (now : Time) (st : St) (runId pid cpn n o : String)
    (qty : Int) (d : Decision) :
    (applyDecision now st runId pid cpn n o qty d).1.mappings = st.mappings := by
  cases d with
  | noName => rfl
  | dupSkip => rfl
  | manualSkip t item =>
    dsimp only [applyDecision]
    split <;> rfl
  | doUpdate t item => rfl
  | doCreate a b c l => rfl

theorem applyDecision_flags (now : Time) (st : St) (runId pid cpn n o : String)
    (qty : Int) (d : Decision) :
    (applyDecision now st runId pid cpn n o qty d).1.isRunning = st.isRunning
    ∧ (applyDecision now st runId pid cpn n o qty d).1.hasClients = st.hasClients
    ∧ (applyDecision now st runId pid cpn n o qty d).1.sales = st.sales
    ∧ (applyDecision now st runId pid cpn n o qty d).1.lastRunResult = st.lastRunResult := by
  cases d with
  | noName => exact ⟨rfl, rfl, rfl, rfl⟩
  | dupSkip => exact ⟨rfl, rfl, rfl, rfl⟩
  | manualSkip t item =>
    dsimp only [applyDecision]
    split <;> exact ⟨rfl, rfl, rfl, rfl⟩
  | doUpdate t item => exact ⟨rfl, rfl, rfl, rfl⟩
  | doCreate a b c l => exact ⟨rfl, rfl, rfl, rfl⟩

theorem updateInventory_config (now : Time) (st : St) (runId pid cpn n o : String)
    (qty : Int) :
    (updateInventoryFromReturn now st runId pid cpn n o qty).1.config = st.config :=
  applyDecision_config now st runId pid cpn n o qty _

theorem hasSuccessLog_after_update (now : Time) (st : St) (runId pid cpn n o : String)
    (qty : Int) (hn : n ≠ "") :
    hasSuccessLog (updateInventoryFromReturn now st runId pid cpn n o qty).1 pid = true := by
  rw [updateInventoryFromReturn]
  rcases hd : matcherDecide st pid cpn n o with _ | _ | ⟨t, item⟩ | ⟨t, item⟩ | ⟨a, b, c, l⟩
  · exact absurd hd (matcherDecide_ne_noName st pid cpn n o hn)
  · have hs := matcherDecide_dupSkip_inv st pid cpn n o hd
    simpa [applyDecision] using hs
  · simp [applyDecision, hasSuccessLog_logSync]
  · simp [applyDecision, hasSuccessLog_logSync]
  · simp [applyDecision, hasSuccessLog_logSync]

theorem update_result_inv (now : Time) (st : St) (runId pid cpn n o : String) (qty : Int)
    (mt : String) (i : Nat) (q q' : Int)
    (h : (updateInventoryFromReturn now st runId pid cpn n o qty).2 = .updated mt i q q') :
    ∃ t item, matcherDecide st pid cpn n o = .doUpdate t item ∧ mt = t.str
      ∧ i = item.id ∧ q = item.qty ∧ q' = item.qty + qty := by
  rw [updateInventoryFromReturn] at h
  rcases hd : matcherDecide st pid cpn n o with _ | _ | ⟨t, item⟩ | ⟨t, item⟩ | ⟨a, b, c, l⟩ <;> rw [hd] at h
  · simp [applyDecision] at h
  · simp [applyDecision] at h
  · simp [applyDecision] at h
  · simp only [applyDecision, InvResult.updated.injEq] at h
    obtain ⟨h1, h2, h3, h4⟩ := h
    exact ⟨t, item, rfl, h1.symm, h2.symm, h3.symm, h4.symm⟩
  · simp [applyDecision] at h

/-! ## Claim theorems -/

/-- C8: whenever a reconciliation cycle is in progress (the in-memory
running flag is set), a further invocation of runSync returns a skipped
result and mutates nothing (it returns the state unchanged); and from a
non-running state every exit of runSync — completion, skip or error —
leaves the flag cleared, so a later invocation may run. -/
theorem c8_single_flight (st st2 : St) (env env2 : Env)
    (h : st.isRunning = true) (h2 : st2.isRunning = false) :
    runSync st env = (st, skippedResult)
    ∧ (runSync st2 env2).1.isRunning = false := by
  constructor
  · simp [runSync, h]
  · simp only [runSync]
    repeat' split
    all_goals first | simpa using h2 | rfl

theorem c8_single_flight_witness :
    emptySt.isRunning = false ∧
    (runSync { emptySt with isRunning := true } wEnvTrivial
        = ({ emptySt with isRunning := true }, skippedResult)
      ∧ (runSync emptySt wEnvTrivial).1.isRunning = false) :=
  ⟨rfl, c8_single_flight { emptySt with isRunning := true } emptySt wEnvTrivial wEnvTrivial
    rfl rfl⟩

/-- C1: if a successful stock-updated audit entry (sync_log row of type
inventory_update with status success) already exists for an order-line id,
processing a return with that id again skips and returns the state
unchanged; one processing of a return from any state records such an entry;
and when a first processing updates a record from q to q2, then q2 = q +
qty and a second processing of the same return is a skip that changes
nothing, so the quantity grows by the returned quantity exactly once across
the two cycles. -/
theorem c1_return_idempotency (now now2 : Time) (st st0 : St)
    (runId runId2 pid cpn productName optionName : String) (qty : Int)
    (mt : String) (i : Nat) (q q' : Int)
    (hpid : pid ≠ "") (hname : productName ≠ "")
    (hdup : hasSuccessLog st pid = true)
    (hup : (updateInventoryFromReturn now st0 runId pid cpn productName optionName qty).2
            = .updated mt i q q') :
    updateInventoryFromReturn now st runId pid cpn productName optionName qty
        = (st, .skippedDup)
    ∧ hasSuccessLog
        (updateInventoryFromReturn now st0 runId pid cpn productName optionName qty).1 pid
        = true
    ∧ q' = q + qty
    ∧ updateInventoryFromReturn now2
        (updateInventoryFromReturn now st0 runId pid cpn productName optionName qty).1
        runId2 pid cpn productName optionName qty
      = ((updateInventoryFromReturn now st0 runId pid cpn productName optionName qty).1,
         .skippedDup) := by
  have skip1 : ∀ (nw : Time) (s : St) (rid : String), hasSuccessLog s pid = true →
      updateInventoryFromReturn nw s rid pid cpn productName optionName qty
        = (s, .skippedDup) := by
    intro nw s rid hs
    rw [updateInventoryFromReturn,
      matcherDecide_guard_dup s pid cpn productName optionName hname hpid hs]
    rfl
  have h2 := hasSuccessLog_after_update now st0 runId pid cpn productName optionName qty hname
  obtain ⟨t, item, hd, hmt, hi, hq, hq'⟩ :=
    update_result_inv now st0 runId pid cpn productName optionName qty mt i q q' hup
  refine ⟨skip1 now st runId hdup, h2, ?_, skip1 now2 _ runId2 h2⟩
  rw [hq', hq]

theorem c1_return_idempotency_witness :
    (("A-1" : String) ≠ "" ∧ ("hm 니트" : String) ≠ ""
      ∧ hasSuccessLog w1St "A-1" = true
      ∧ (updateInventoryFromReturn 100 w1St0 "r1" "A-1" "" "hm 니트" "블랙" 2).2
          = .updated "exact" 1 5 7)
    ∧ (updateInventoryFromReturn 100 w1St "r1" "A-1" "" "hm 니트" "블랙" 2
          = (w1St, .skippedDup)
      ∧ hasSuccessLog
          (updateInventoryFromReturn 100 w1St0 "r1" "A-1" "" "hm 니트" "블랙" 2).1 "A-1"
          = true
      ∧ (7 : Int) = 5 + 2
      ∧ updateInventoryFromReturn 110
          (updateInventoryFromReturn 100 w1St0 "r1" "A-1" "" "hm 니트" "블랙" 2).1
          "r2" "A-1" "" "hm 니트" "블랙" 2
        = ((updateInventoryFromReturn 100 w1St0 "r1" "A-1" "" "hm 니트" "블랙" 2).1,
           .skippedDup)) :=
  ⟨⟨by decide, by decide, by decide, by decide⟩,
   c1_return_idempotency 100 110 w1St w1St0 "r1" "r2" "A-1" "" "hm 니트" "블랙" 2
     "exact" 1 5 7 (by decide) (by decide) (by decide) (by decide)⟩

theorem setLink_idqty (inv : List InvRecord) (i : Nat) (cpn : String) :
    (setLink inv i cpn).map (fun r => (r.id, r.qty)) = inv.map (fun r => (r.id, r.qty)) := by
  simp only [setLink, List.map_map]
  apply List.map_congr_left
  intro r _
  by_cases h : r.id = i <;> simp [h]

/-- C3: for a record matched in any tier whose last-mutated timestamp is
non-null and strictly after the sync watermark, the matcher skips with the
manual-update reason, every quantity is left unchanged, and exactly in the
text tiers a pending channel-product link is still persisted on the
record. -/
theorem c3_manual_edit_non_clobber (now : Time) (st : St)
    (runId pid cpn productName optionName : String) (qty : Int)
    (t : Tier) (item : InvRecord) (wm tu : Time)
    (hname : productName ≠ "")
    (hguard : (pid != "" && hasSuccessLog st pid) = false)
    (hm : matchedRecord st.inventory cpn (jsTrim optionName) (cleanNameOf productName)
            (keywordsOf (cleanNameOf productName)) = some (t, item))
    (hwm : getTime st "last_sync_time" = some wm)
    (htu : item.updatedAt = some tu)
    (hlt : wm < tu) :
    (updateInventoryFromReturn now st runId pid cpn productName optionName qty).2
        = .skippedManual item.id
    ∧ ((updateInventoryFromReturn now st runId pid cpn productName optionName qty).1.inventory.map
        fun r => (r.id, r.qty))
        = st.inventory.map (fun r => (r.id, r.qty))
    ∧ (updateInventoryFromReturn now st runId pid cpn productName optionName qty).1.inventory
        = (if wantsLink t cpn item then setLink st.inventory item.id cpn
           else st.inventory) := by
  have hman : manualEdited (getTime st "last_sync_time") item = true := by
    rw [hwm]
    simp [manualEdited, htu, hlt]
  have hdec : matcherDecide st pid cpn productName optionName = .manualSkip t item := by
    rw [matcherDecide_open st pid cpn productName optionName hname hguard, hm]
    simp [hman]
  rw [updateInventoryFromReturn, hdec]
  refine ⟨rfl, ?_, ?_⟩
  · dsimp only [applyDecision]
    split
    · simpa using setLink_idqty st.inventory item.id cpn
    · rfl
  · dsimp only [applyDecision]
    split <;> rfl

theorem c3_manual_edit_non_clobber_witness :
    (("hm 니트" : String) ≠ ""
      ∧ (("A-3" : String) != "" && hasSuccessLog w3St "A-3") = false
      ∧ matchedRecord w3St.inventory "" (jsTrim "블랙") (cleanNameOf "hm 니트")
          (keywordsOf (cleanNameOf "hm 니트"))
          = some (Tier.exact, ⟨1, "hm 니트", "블랙", 5, "hm", none, some 80⟩)
      ∧ getTime w3St "last_sync_time" = some 50
      ∧ (50 : Nat) < 80)
    ∧ ((updateInventoryFromReturn 100 w3St "r3" "A-3" "" "hm 니트" "블랙" 2).2
        = .skippedManual 1
      ∧ ((updateInventoryFromReturn 100 w3St "r3" "A-3" "" "hm 니트" "블랙" 2).1.inventory.map
          fun r => (r.id, r.qty))
          = w3St.inventory.map (fun r => (r.id, r.qty))
      ∧ (updateInventoryFromReturn 100 w3St "r3" "A-3" "" "hm 니트" "블랙" 2).1.inventory
          = (if wantsLink Tier.exact "" ⟨1, "hm 니트", "블랙", 5, "hm", none, some 80⟩
              then setLink w3St.inventory 1 ""
             else w3St.inventory)) :=
  ⟨⟨by decide, by decide, by decide, by decide, by decide⟩,
   c3_manual_edit_non_clobber 100 w3St "r3" "A-3" "" "hm 니트" "블랙" 2 Tier.exact
     ⟨1, "hm 니트", "블랙", 5, "hm", none, some 80⟩ 50 80
     (by decide) (by decide) (by decide) (by decide) (by decide) (by decide)⟩

/-- C4: when the return carries a channel product id and the direct-link
lookup (exact color narrowing first, then without) yields a record, the
direct tier wins regardless of any text match: the matcher resolves to that
record, the result is an update of exactly that record, and its stored
quantity grows by the returned quantity. -/
theorem c4_direct_tier_priority (now : Time) (st : St)
    (runId pid cpn productName optionName : String) (qty : Int) (item : InvRecord)
    (hname : productName ≠ "")
    (hguard : (pid != "" && hasSuccessLog st pid) = false)
    (hcpn : cpn ≠ "")
    (hdl : directLookup st.inventory cpn (jsTrim optionName) = some item)
    (hman : manualEdited (getTime st "last_sync_time") item = false) :
    matchedRecord st.inventory cpn (jsTrim optionName) (cleanNameOf productName)
        (keywordsOf (cleanNameOf productName)) = some (Tier.direct, item)
    ∧ (updateInventoryFromReturn now st runId pid cpn productName optionName qty).2
        = .updated "direct" item.id item.qty (item.qty + qty)
    ∧ (updateInventoryFromReturn now st runId pid cpn productName optionName qty).1.inventory
        = setQty st.inventory item.id (item.qty + qty) now := by
  have hcpn' : (cpn != "") = true := by simpa using hcpn
  have hmr : matchedRecord st.inventory cpn (jsTrim optionName) (cleanNameOf productName)
      (keywordsOf (cleanNameOf productName)) = some (Tier.direct, item) := by
    simp [matchedRecord, hcpn', hdl]
  have hdec : matcherDecide st pid cpn productName optionName = .doUpdate Tier.direct item := by
    rw [matcherDecide_open st pid cpn productName optionName hname hguard, hmr]
    simp [hman]
  refine ⟨hmr, ?_, ?_⟩ <;> rw [updateInventoryFromReturn, hdec]
  · rfl
  · dsimp only [applyDecision]
    simp [wantsLink]

theorem c4_direct_tier_priority_witness :
    (("hm 니트" : String) ≠ ""
      ∧ (("A-4" : String) != "" && hasSuccessLog w4St "A-4") = false
      ∧ ("P1" : String) ≠ ""
      ∧ directLookup w4St.inventory "P1" (jsTrim "레드")
          = some ⟨1, "다른 이름", "레드", 3, "", some "P1", none⟩
      ∧ manualEdited (getTime w4St "last_sync_time")
          ⟨1, "다른 이름", "레드", 3, "", some "P1", none⟩ = false)
    ∧ (matchedRecord w4St.inventory "P1" (jsTrim "레드") (cleanNameOf "hm 니트")
          (keywordsOf (cleanNameOf "hm 니트"))
          = some (Tier.direct, ⟨1, "다른 이름", "레드", 3, "", some "P1", none⟩)
      ∧ (updateInventoryFromReturn 100 w4St "r4" "A-4" "P1" "hm 니트" "레드" 2).2
          = .updated "direct" 1 3 5
      ∧ (updateInventoryFromReturn 100 w4St "r4" "A-4" "P1" "hm 니트" "레드" 2).1.inventory
          = setQty w4St.inventory 1 5 100) :=
  ⟨⟨by decide, by decide, by decide, by decide, by decide⟩,
   c4_direct_tier_priority 100 w4St "r4" "A-4" "P1" "hm 니트" "레드" 2
     ⟨1, "다른 이름", "레드", 3, "", some "P1", none⟩
     (by decide) (by decide) (by decide) (by decide) (by decide)⟩

/-- C9: a return matching no record in any tier creates exactly one new
canonical stock record: initial quantity the returned quantity, color the
option string or the placeholder, name the normalized text falling back to
the raw trimmed text, brand the lowercase two-letter alphabetic prefix of
the normalized name when present (ps-prefix and bracket examples included),
and the channel product id attached for immediate linking. -/
theorem c9_new_registration (now : Time) (st : St)
    (runId pid cpn productName optionName : String) (qty : Int)
    (hname : productName ≠ "")
    (hguard : (pid != "" && hasSuccessLog st pid) = false)
    (hm : matchedRecord st.inventory cpn (jsTrim optionName) (cleanNameOf productName)
            (keywordsOf (cleanNameOf productName)) = none) :
    (updateInventoryFromReturn now st runId pid cpn productName optionName qty).1.inventory
      = st.inventory ++
        [⟨st.nextInvId,
          (if cleanNameOf productName != "" then cleanNameOf productName
           else jsTrim productName),
          (if jsTrim optionName != "" then jsTrim optionName else "기본"),
          qty, brandOf (cleanNameOf productName),
          (if cpn != "" then some cpn else none), none⟩]
    ∧ (updateInventoryFromReturn now st runId pid cpn productName optionName qty).2
      = .created st.nextInvId
          (if cleanNameOf productName != "" then cleanNameOf productName
           else jsTrim productName)
          (if jsTrim optionName != "" then jsTrim optionName else "기본") qty
    ∧ brandOf (cleanNameOf "ps 니트") = "ps"
    ∧ brandOf (cleanNameOf "[타이즈] 무지") = "" := by
  have hdec : matcherDecide st pid cpn productName optionName
      = .doCreate
          (if cleanNameOf productName != "" then cleanNameOf productName
           else jsTrim productName)
          (if jsTrim optionName != "" then jsTrim optionName else "기본")
          (brandOf (cleanNameOf productName))
          (if cpn != "" then some cpn else none) := by
    rw [matcherDecide_open st pid cpn productName optionName hname hguard, hm]
  refine ⟨?_, ?_, by decide, by decide⟩ <;> rw [updateInventoryFromReturn, hdec] <;> rfl

theorem c9_new_registration_witness :
    (("ps 니트" : String) ≠ ""
      ∧ (("A-9" : String) != "" && hasSuccessLog emptySt "A-9") = false
      ∧ matchedRecord emptySt.inventory "P9" (jsTrim "") (cleanNameOf "ps 니트")
          (keywordsOf (cleanNameOf "ps 니트")) = none)
    ∧ ((updateInventoryFromReturn 100 emptySt "r9" "A-9" "P9" "ps 니트" "" 3).1.inventory
        = emptySt.inventory ++
          [⟨emptySt.nextInvId,
            (if cleanNameOf "ps 니트" != "" then cleanNameOf "ps 니트" else jsTrim "ps 니트"),
            (if jsTrim "" != "" then jsTrim "" else "기본"),
            3, brandOf (cleanNameOf "ps 니트"),
            (if ("P9" : String) != "" then some "P9" else none), none⟩]
      ∧ (updateInventoryFromReturn 100 emptySt "r9" "A-9" "P9" "ps 니트" "" 3).2
        = .created emptySt.nextInvId
            (if cleanNameOf "ps 니트" != "" then cleanNameOf "ps 니트" else jsTrim "ps 니트")
            (if jsTrim "" != "" then jsTrim "" else "기본") 3
      ∧ brandOf (cleanNameOf "ps 니트") = "ps"
      ∧ brandOf (cleanNameOf "[타이즈] 무지") = "") :=
  ⟨⟨by decide, by decide, by decide⟩,
   c9_new_registration 100 emptySt "r9" "A-9" "P9" "ps 니트" "" 3
     (by decide) (by decide) (by decide)⟩

/-! ## Lemmas about the sales collectors -/

theorem getConfig_logSync (st : St) (e : LogEntry) (k : String) :
    getConfig (logSync st e) k = getConfig st k := rfl

theorem getConfig_eq_of_config (s1 s2 : St) (h : s1.config = s2.config) (k : String) :
    getConfig s1 k = getConfig s2 k := by
  unfold getConfig
  rw [h]

theorem insertSalesRows_core (st : St) (store : String) (rows : List SalesRow) :
    (insertSalesRows st store rows).1.config = st.config
    ∧ (insertSalesRows st store rows).1.inventory = st.inventory
    ∧ (insertSalesRows st store rows).1.syncLog = st.syncLog
    ∧ (insertSalesRows st store rows).1.mappings = st.mappings := by
  unfold insertSalesRows
  refine @foldl_preserve _ _
    (fun acc => acc.1.config = st.config ∧ acc.1.inventory = st.inventory
      ∧ acc.1.syncLog = st.syncLog ∧ acc.1.mappings = st.mappings)
    _ rows ?_ (st, 0) ⟨rfl, rfl, rfl, rfl⟩
  intro a b ha
  dsimp only
  split
  · exact ha
  · exact ha

theorem collectChunked_fold_core (st : St) (store : String)
    (chunk : Nat → Nat → Except Unit (List SalesRow)) (l : List (Nat × Nat)) :
    (l.foldl (salesChunkStep store chunk) (st, 0)).1.config = st.config
    ∧ (l.foldl (salesChunkStep store chunk) (st, 0)).1.inventory = st.inventory
    ∧ (l.foldl (salesChunkStep store chunk) (st, 0)).1.mappings = st.mappings := by
  refine @foldl_preserve _ _
    (fun acc => acc.1.config = st.config ∧ acc.1.inventory = st.inventory
      ∧ acc.1.mappings = st.mappings)
    _ l ?_ (st, 0) ⟨rfl, rfl, rfl⟩
  intro a c ha
  obtain ⟨h1, h2, h3⟩ := ha
  unfold salesChunkStep
  cases chunk c.1 c.2 with
  | ok rows =>
    obtain ⟨g1, g2, _, g4⟩ := insertSalesRows_core a.1 store rows
    exact ⟨g1.trans h1, g2.trans h2, g4.trans h3⟩
  | error e => exact ⟨h1, h2, h3⟩

theorem collectChunked_getConfig_ne (st : St) (runId store configKey : String)
    (now : Time) (chunk : Nat → Nat → Except Unit (List SalesRow)) (k : String)
    (hk : k ≠ configKey) :
    getConfig (collectChunked st runId store configKey now chunk) k = getConfig st k := by
  simp only [collectChunked]
  split
  · rw [getConfig_logSync, getConfig_setConfig_ne _ _ _ _ hk]
    exact getConfig_eq_of_config _ _ (collectChunked_fold_core st store chunk _).1 k
  · rw [getConfig_setConfig_ne _ _ _ _ hk]
    exact getConfig_eq_of_config _ _ (collectChunked_fold_core st store chunk _).1 k

theorem collectChunked_getConfig_self (st : St) (runId store configKey : String)
    (now : Time) (chunk : Nat → Nat → Except Unit (List SalesRow)) :
    getConfig (collectChunked st runId store configKey now chunk) configKey
      = some (.time now) := by
  simp only [collectChunked]
  split
  · rw [getConfig_logSync, getConfig_setConfig_self]
  · rw [getConfig_setConfig_self]

theorem collectChunked_inventory (st : St) (runId store configKey : String)
    (now : Time) (chunk : Nat → Nat → Except Unit (List SalesRow)) :
    (collectChunked st runId store configKey now chunk).inventory = st.inventory := by
  simp only [collectChunked]
  split
  · rw [logSync_inventory, setConfig_inventory]
    exact (collectChunked_fold_core st store chunk _).2.1
  · rw [setConfig_inventory]
    exact (collectChunked_fold_core st store chunk _).2.1

theorem collectChunked_mappings (st : St) (runId store configKey : String)
    (now : Time) (chunk : Nat → Nat → Except Unit (List SalesRow)) :
    (collectChunked st runId store configKey now chunk).mappings = st.mappings := by
  simp only [collectChunked]
  split
  · rw [logSync_mappings, setConfig_mappings]
    exact (collectChunked_fold_core st store chunk _).2.2
  · rw [setConfig_mappings]
    exact (collectChunked_fold_core st store chunk _).2.2

theorem collectZigzag_getConfig_ne (st : St) (runId : String) (now : Time)
    (keys : Bool) (pull : Except Unit (List SalesRow)) (k : String)
    (hk : k ≠ "sales_last_fetch_d") :
    getConfig (collectZigzag st runId now keys pull) k = getConfig st k := by
  simp only [collectZigzag]
  split
  · split
    · split
      · rw [getConfig_logSync, getConfig_setConfig_ne _ _ _ _ hk]
        exact getConfig_eq_of_config _ _ (insertSalesRows_core st "D" _).1 k
      · rw [getConfig_setConfig_ne _ _ _ _ hk]
        exact getConfig_eq_of_config _ _ (insertSalesRows_core st "D" _).1 k
    · rfl
  · rfl

theorem collectZigzag_inventory (st : St) (runId : String) (now : Time)
    (keys : Bool) (pull : Except Unit (List SalesRow)) :
    (collectZigzag st runId now keys pull).inventory = st.inventory := by
  simp only [collectZigzag]
  split
  · split
    · split
      · rw [logSync_inventory, setConfig_inventory]
        exact (insertSalesRows_core st "D" _).2.1
      · rw [setConfig_inventory]
        exact (insertSalesRows_core st "D" _).2.1
    · rfl
  · rfl

theorem collectZigzag_mappings (st : St) (runId : String) (now : Time)
    (keys : Bool) (pull : Except Unit (List SalesRow)) :
    (collectZigzag st runId now keys pull).mappings = st.mappings := by
  simp only [collectZigzag]
  split
  · split
    · split
      · rw [logSync_mappings, setConfig_mappings]
        exact (insertSalesRows_core st "D" _).2.2.2
      · rw [setConfig_mappings]
        exact (insertSalesRows_core st "D" _).2.2.2
    · rfl
  · rfl

theorem collectZigzag_fail (st : St) (runId : String) (now : Time) (k : String) :
    getConfig (collectZigzag st runId now true (.error ())) k = getConfig st k := rfl

theorem collectZigzag_ok (st : St) (runId : String) (now : Time)
    (rows : List SalesRow) :
    getConfig (collectZigzag st runId now true (.ok rows)) "sales_last_fetch_d"
      = some (.time now) := by
  simp only [collectZigzag]
  split
  · split
    · rw [getConfig_logSync, getConfig_setConfig_self]
    · rw [getConfig_setConfig_self]
  · simp_all

theorem fetchSalesData_getConfig_other (st : St) (env : Env) (k : String)
    (h1 : k ≠ "sales_last_fetch_a") (h2 : k ≠ "sales_last_fetch_b")
    (h3 : k ≠ "sales_last_fetch_c") (h4 : k ≠ "sales_last_fetch_d") :
    getConfig (fetchSalesData st env) k = getConfig st k := by
  simp only [fetchSalesData]
  split
  · rfl
  · rw [collectZigzag_getConfig_ne _ _ _ _ _ _ h4]
    split
    · rw [collectChunked_getConfig_ne _ _ _ _ _ _ _ h3,
        collectChunked_getConfig_ne _ _ _ _ _ _ _ h2,
        collectChunked_getConfig_ne _ _ _ _ _ _ _ h1]
    · rw [collectChunked_getConfig_ne _ _ _ _ _ _ _ h2,
        collectChunked_getConfig_ne _ _ _ _ _ _ _ h1]

theorem fetchSalesData_inventory (st : St) (env : Env) :
    (fetchSalesData st env).inventory = st.inventory := by
  simp only [fetchSalesData]
  split
  · rfl
  · rw [collectZigzag_inventory]
    split
    · rw [collectChunked_inventory, collectChunked_inventory, collectChunked_inventory]
    · rw [collectChunked_inventory, collectChunked_inventory]

theorem fetchSalesData_mappings (st : St) (env : Env) :
    (fetchSalesData st env).mappings = st.mappings := by
  simp only [fetchSalesData]
  split
  · rfl
  · rw [collectZigzag_mappings]
    split
    · rw [collectChunked_mappings, collectChunked_mappings, collectChunked_mappings]
    · rw [collectChunked_mappings, collectChunked_mappings]

theorem getConfig_flags_update (s : St) (b : Bool) (r : Option RunResult) (k : String) :
    getConfig { s with isRunning := b, lastRunResult := r } k = getConfig s k := rfl

/-- C5: a cycle whose initial return-listing fetch throws, or whose batch
detail fetch throws out of per-item processing, leaves the primary
watermark config value last_sync_time exactly as it was; a cycle that gets
through collection and per-item processing (including the empty-work path)
sets it to the cycle's end time. -/
theorem c5_cycle_failure_preserves_watermark
    (st1 st2 st3 : St) (env1 env2 env3 : Env) (l2 l3 : List String)
    (h1 : env1.fetchReturns = .error ())
    (h2a : env2.fetchReturns = .ok l2) (h2b : workListOf st2 l2 ≠ [])
    (h2c : env2.detailsOk = false)
    (h3a : env3.fetchReturns = .ok l3) (h3b : env3.detailsOk = true)
    (h3c : st3.isRunning = false) (h3d : st3.hasClients = true) :
    getConfig (runSync st1 env1).1 "last_sync_time" = getConfig st1 "last_sync_time"
    ∧ getConfig (runSync st2 env2).1 "last_sync_time" = getConfig st2 "last_sync_time"
    ∧ getConfig (runSync st3 env3).1 "last_sync_time" = some (.time env3.now) := by
  refine ⟨?_, ?_, ?_⟩
  · simp only [runSync, h1]
    repeat' split
    all_goals rfl
  · have hie : (workListOf st2 l2).isEmpty = false := by
      simpa [List.isEmpty_iff] using h2b
    simp only [runSync, h2a, hie, h2c]
    repeat' split
    all_goals first | rfl | simp_all
  · have hr : (st3.isRunning = true) = False := by simp [h3c]
    have hc : ((!st3.hasClients) = true) = False := by simp [h3d]
    have hd : ((!env3.detailsOk) = true) = False := by simp [h3b]
    simp only [runSync, hr, hc, hd, if_false, h3a]
    split
    · rw [getConfig_flags_update,
        fetchSalesData_getConfig_other _ _ _ (by decide) (by decide) (by decide) (by decide),
        getConfig_setConfig_self]
    · rw [getConfig_flags_update,
        fetchSalesData_getConfig_other _ _ _ (by decide) (by decide) (by decide) (by decide),
        getConfig_setConfig_self]

theorem c5_cycle_failure_preserves_watermark_witness :
    (w5EnvErr.fetchReturns = .error ()
      ∧ w5EnvDet.fetchReturns = .ok ["A-5"]
      ∧ workListOf emptySt ["A-5"] ≠ []
      ∧ w5EnvDet.detailsOk = false
      ∧ wEnvTrivial.fetchReturns = .ok []
      ∧ wEnvTrivial.detailsOk = true
      ∧ emptySt.isRunning = false
      ∧ emptySt.hasClients = true)
    ∧ (getConfig (runSync emptySt w5EnvErr).1 "last_sync_time"
          = getConfig emptySt "last_sync_time"
      ∧ getConfig (runSync emptySt w5EnvDet).1 "last_sync_time"
          = getConfig emptySt "last_sync_time"
      ∧ getConfig (runSync emptySt wEnvTrivial).1 "last_sync_time"
          = some (.time wEnvTrivial.now)) :=
  ⟨⟨rfl, rfl, by decide, rfl, rfl, rfl, rfl, rfl⟩,
   c5_cycle_failure_preserves_watermark emptySt emptySt emptySt w5EnvErr w5EnvDet
     wEnvTrivial ["A-5"] [] rfl rfl (by decide) rfl rfl rfl rfl rfl⟩

/-- C10 counterexample: with a stored store-A watermark of 5, a cycle at
time 10 whose store-A order-status pull fails on its (only) chunk still
advances sales_last_fetch_a to 10 — the claim that a failed pull leaves
the channel's watermark unchanged is false on the code. -/
theorem c10_counterexample :
    w10Env.chunkA 5 10 = .error ()
    ∧ getConfig w10St "sales_last_fetch_a" = some (.time 5)
    ∧ getConfig (fetchSalesData w10St w10Env) "sales_last_fetch_a" = some (.time 10) :=
  ⟨rfl, by decide, by decide⟩

/-- C10 amended: for the chunk-looped channels (A, B and Coupang) the sales
watermark is advanced to the cycle's end time after the chunk loop,
whether or not individual chunk pulls failed (the pulls are arbitrary here,
including always-failing ones), and one channel's pull failures do not stop
the later channels; only the Zigzag channel, whose pull is not wrapped
per chunk, leaves its watermark untouched when the pull fails and advances
it on success. -/
theorem c10_sales_watermark_amended (st st2 : St) (env env2 : Env)
    (rows : List SalesRow)
    (h : st.hasClients = true)
    (hck : env.coupangKeys = true)
    (hz : env.zigzagKeys = true) (hzf : env.zigzagPull = .error ())
    (h2 : st2.hasClients = true)
    (hz2 : env2.zigzagKeys = true) (hzo : env2.zigzagPull = .ok rows) :
    getConfig (fetchSalesData st env) "sales_last_fetch_a" = some (.time env.now)
    ∧ getConfig (fetchSalesData st env) "sales_last_fetch_b" = some (.time env.now)
    ∧ getConfig (fetchSalesData st env) "sales_last_fetch_c" = some (.time env.now)
    ∧ getConfig (fetchSalesData st env) "sales_last_fetch_d"
        = getConfig st "sales_last_fetch_d"
    ∧ getConfig (fetchSalesData st2 env2) "sales_last_fetch_d" = some (.time env2.now) := by
  have hc : ((!st.hasClients) = true) = False := by simp [h]
  have hc2 : ((!st2.hasClients) = true) = False := by simp [h2]
  refine ⟨?_, ?_, ?_, ?_, ?_⟩
  · simp only [fetchSalesData, hc, if_false, hck, hz]
    rw [if_pos trivial, collectZigzag_getConfig_ne _ _ _ _ _ _ (by decide),
      collectChunked_getConfig_ne _ _ _ _ _ _ _ (by decide),
      collectChunked_getConfig_ne _ _ _ _ _ _ _ (by decide),
      collectChunked_getConfig_self]
  · simp only [fetchSalesData, hc, if_false, hck, hz]
    rw [if_pos trivial, collectZigzag_getConfig_ne _ _ _ _ _ _ (by decide),
      collectChunked_getConfig_ne _ _ _ _ _ _ _ (by decide),
      collectChunked_getConfig_self]
  · simp only [fetchSalesData, hc, if_false, hck, hz]
    rw [if_pos trivial, collectZigzag_getConfig_ne _ _ _ _ _ _ (by decide),
      collectChunked_getConfig_self]
  · simp only [fetchSalesData, hc, if_false, hck, hz, hzf]
    rw [if_pos trivial, collectZigzag_fail,
      collectChunked_getConfig_ne _ _ _ _ _ _ _ (by decide),
      collectChunked_getConfig_ne _ _ _ _ _ _ _ (by decide),
      collectChunked_getConfig_ne _ _ _ _ _ _ _ (by decide)]
  · simp only [fetchSalesData, hc2, if_false, hz2, hzo]
    split
    · rw [collectZigzag_ok]
    · rw [collectZigzag_ok]

theorem c10_sales_watermark_amended_witness :
    (w10St.hasClients = true
      ∧ w10EnvZ.coupangKeys = true
      ∧ w10EnvZ.zigzagKeys = true ∧ w10EnvZ.zigzagPull = .error ()
      ∧ w10St.hasClients = true
      ∧ w10Env2.zigzagKeys = true ∧ w10Env2.zigzagPull = .ok [])
    ∧ (getConfig (fetchSalesData w10St w10EnvZ) "sales_last_fetch_a"
          = some (.time w10EnvZ.now)
      ∧ getConfig (fetchSalesData w10St w10EnvZ) "sales_last_fetch_b"
          = some (.time w10EnvZ.now)
      ∧ getConfig (fetchSalesData w10St w10EnvZ) "sales_last_fetch_c"
          = some (.time w10EnvZ.now)
      ∧ getConfig (fetchSalesData w10St w10EnvZ) "sales_last_fetch_d"
          = getConfig w10St "sales_last_fetch_d"
      ∧ getConfig (fetchSalesData w10St w10Env2) "sales_last_fetch_d"
          = some (.time w10Env2.now)) :=
  ⟨⟨rfl, rfl, rfl, rfl, rfl, rfl, rfl⟩,
   c10_sales_watermark_amended w10St w10St w10EnvZ w10Env2 [] rfl rfl rfl rfl rfl rfl rfl⟩

/-- C7 counterexample: order line A-1 already carries a successful
stock-updated audit entry, yet processing it again performs a stock
increase on the secondary storefront — the Engine runs the
secondary-storefront mutation before resolving the Canonical Matcher, so
the claimed ordering (matcher with its tier-1 guard first, hence no
secondary mutation for an already-processed line) is false on the code. -/
theorem c7_counterexample :
    hasSuccessLog w7St "A-1" = true
    ∧ (processReturnedItem 100 w7St "r1" w7d w7ienv).trace
        = [.stockIncreaseB "B1"] :=
  ⟨by decide, by decide⟩

/-- C7 amended: within per-item processing the Engine performs the
secondary-storefront mutation (step b stock increase, or step c listing
creation) first and resolves the Canonical Matcher afterwards; the tier-1
idempotency guard therefore protects only the canonical stock record: for
an order-line already recorded as successfully processed whose mapping
carries a usable secondary listing id, the cycle still performs the
secondary stock increase, while the canonical inventory step is a skip
that leaves every stock record unchanged. -/
theorem c7_processing_order_amended (now : Time) (st : St) (runId : String)
    (d : Detail) (ienv : ItemEnv) (m : Mapping)
    (hdup : hasSuccessLog st d.productOrderId = true)
    (hpid : d.productOrderId ≠ "") (hname : d.productName ≠ "")
    (hm : st.mappings.find? (fun mm => mm.aNo == d.channelProductNo
            && mm.aOption == d.optionName) = some m)
    (hst : (m.status != "unmatched") = true) (hb : bNoPresent m.bNo = true)
    (hinc : ienv.increase = none) :
    (processReturnedItem now st runId d ienv).trace
        = [.stockIncreaseB (m.bNo.getD "")]
    ∧ (processReturnedItem now st runId d ienv).inv = some .skippedDup
    ∧ (processReturnedItem now st runId d ienv).st.inventory = st.inventory := by
  have hg : (m.status != "unmatched" && bNoPresent m.bNo) = true := by
    rw [hst, hb]
    rfl
  have hskip : ∀ (s : St), hasSuccessLog s d.productOrderId = true →
      updateInventoryFromReturn now s runId d.productOrderId d.channelProductNo
        d.productName d.optionName (extractQty d) = (s, .skippedDup) := by
    intro s hs
    rw [updateInventoryFromReturn,
      matcherDecide_guard_dup s _ _ _ _ hname hpid hs]
    rfl
  simp only [processReturnedItem, hm, hg, hinc, increaseStoreB, if_true]
  rw [hskip _ (hasSuccessLog_mono st _ _ hdup)]
  simp

theorem c7_processing_order_amended_witness :
    (hasSuccessLog w7St "A-1" = true
      ∧ ("A-1" : String) ≠ "" ∧ ("hm 니트" : String) ≠ ""
      ∧ w7St.mappings.find? (fun mm => mm.aNo == "P1" && mm.aOption == "")
          = some ⟨"P1", "", some "B1", "matched"⟩
      ∧ (("matched" : String) != "unmatched") = true
      ∧ bNoPresent (some "B1") = true
      ∧ w7ienv.increase = none)
    ∧ ((processReturnedItem 100 w7St "r1" w7d w7ienv).trace
          = [.stockIncreaseB ((some "B1" : Option String).getD "")]
      ∧ (processReturnedItem 100 w7St "r1" w7d w7ienv).inv = some .skippedDup
      ∧ (processReturnedItem 100 w7St "r1" w7d w7ienv).st.inventory
          = w7St.inventory) :=
  ⟨⟨by decide, by decide, by decide, by decide, by decide, by decide, rfl⟩,
   c7_processing_order_amended 100 w7St "r1" w7d w7ienv ⟨"P1", "", some "B1", "matched"⟩
     (by decide) (by decide) (by decide) (by decide) (by decide) (by decide) rfl⟩

/-! ## Per-item processing: preservation lemmas -/

theorem increaseStoreB_inventory (st : St) (runId bNo n o : String) (q : Int)
    (pid : String) (res : Option BErr) :
    (increaseStoreB st runId bNo n o q pid res).1.inventory = st.inventory := by
  cases res <;> rfl

theorem increaseStoreB_config (st : St) (runId bNo n o : String) (q : Int)
    (pid : String) (res : Option BErr) :
    (increaseStoreB st runId bNo n o q pid res).1.config = st.config := by
  cases res <;> rfl

theorem copyCreate_inventory (st : St) (runId cpn n o : String) (q : Int)
    (pid : String) (co : CreateOutcome) :
    (copyAndCreateInStoreB st runId cpn n o q pid co).1.inventory = st.inventory := by
  cases co with
  | noSource => rfl
  | createdNo nn =>
    dsimp only [copyAndCreateInStoreB, saveMapping]
    split <;> rfl
  | failed => rfl

theorem copyCreate_config (st : St) (runId cpn n o : String) (q : Int)
    (pid : String) (co : CreateOutcome) :
    (copyAndCreateInStoreB st runId cpn n o q pid co).1.config = st.config := by
  cases co with
  | noSource => rfl
  | createdNo nn =>
    dsimp only [copyAndCreateInStoreB, saveMapping]
    split <;> rfl
  | failed => rfl

theorem resetMapping_inventory (st : St) (aNo aOption : String) :
    (resetMapping st aNo aOption).inventory = st.inventory := rfl

theorem resetMapping_config (st : St) (aNo aOption : String) :
    (resetMapping st aNo aOption).config = st.config := rfl

theorem invqty_of_inventory_eq (s1 s2 : St) (he : s1.inventory = s2.inventory)
    (h : InvQtyOK s2) : InvQtyOK s1 := by
  intro r hr
  rw [he] at hr
  exact h r hr

/-- Per-item processing either leaves the inventory table untouched (the
paths that throw out of the Store-B steps) or is the return-to-inventory
step applied to a state whose inventory is the incoming one — the Store-B
steps never touch the inventory table. -/
theorem processItem_inventory_char (now : Time) (st : St) (runId : String)
    (d : Detail) (ienv : ItemEnv) :
    (processReturnedItem now st runId d ienv).st.inventory = st.inventory
    ∨ ∃ s : St, s.inventory = st.inventory
        ∧ (processReturnedItem now st runId d ienv).st
            = (updateInventoryFromReturn now s runId d.productOrderId d.channelProductNo
                d.productName d.optionName (extractQty d)).1 := by
  simp only [processReturnedItem]
  repeat' split
  · rename_i st1 tr heq
    have h1 := congrArg (fun x : St × List BAction × Option BErr => x.1.inventory) heq
    dsimp only at h1
    rw [increaseStoreB_inventory] at h1
    right
    exact ⟨st1, h1.symm, rfl⟩
  · rename_i st1 fst heq1 x st3 tr heq
    have h1 := congrArg (fun x : St × List BAction × Option BErr => x.1.inventory) heq1
    dsimp only at h1
    rw [increaseStoreB_inventory] at h1
    have h2 := congrArg (fun x : St × List BAction × Bool => x.1.inventory) heq
    dsimp only at h2
    rw [copyCreate_inventory, resetMapping_inventory] at h2
    right
    exact ⟨st3, h2.symm.trans h1.symm, rfl⟩
  · rename_i st1 fst heq1 x st3 tr heq
    have h1 := congrArg (fun x : St × List BAction × Option BErr => x.1.inventory) heq1
    dsimp only at h1
    rw [increaseStoreB_inventory] at h1
    have h2 := congrArg (fun x : St × List BAction × Bool => x.1.inventory) heq
    dsimp only at h2
    rw [copyCreate_inventory, resetMapping_inventory] at h2
    left
    exact h2.symm.trans h1.symm
  · rename_i st1 fst heq
    have h1 := congrArg (fun x : St × List BAction × Option BErr => x.1.inventory) heq
    dsimp only at h1
    rw [increaseStoreB_inventory] at h1
    left
    exact h1.symm
  · rename_i st3 tr heq
    have h2 := congrArg (fun x : St × List BAction × Bool => x.1.inventory) heq
    dsimp only at h2
    rw [copyCreate_inventory] at h2
    right
    exact ⟨st3, h2.symm, rfl⟩
  · rename_i st3 tr heq
    have h2 := congrArg (fun x : St × List BAction × Bool => x.1.inventory) heq
    dsimp only at h2
    rw [copyCreate_inventory] at h2
    left
    exact h2.symm
  · rename_i st3 tr heq
    have h2 := congrArg (fun x : St × List BAction × Bool => x.1.inventory) heq
    dsimp only at h2
    rw [copyCreate_inventory] at h2
    right
    exact ⟨st3, h2.symm, rfl⟩
  · rename_i st3 tr heq
    have h2 := congrArg (fun x : St × List BAction × Bool => x.1.inventory) heq
    dsimp only at h2
    rw [copyCreate_inventory] at h2
    left
    exact h2.symm

theorem setQty_invqty (inv : List InvRecord) (i : Nat) (v : Int) (now : Time)
    (hv : 0 ≤ v) (h : ∀ r ∈ inv, 0 ≤ r.qty) :
    ∀ r ∈ setQty inv i v now, 0 ≤ r.qty := by
  intro r hr
  simp only [setQty, List.mem_map] at hr
  obtain ⟨r0, hr0, hre⟩ := hr
  rw [← hre]
  split
  · exact hv
  · exact h r0 hr0

theorem setQtyLink_invqty (inv : List InvRecord) (i : Nat) (v : Int) (cpn : String)
    (now : Time) (hv : 0 ≤ v) (h : ∀ r ∈ inv, 0 ≤ r.qty) :
    ∀ r ∈ setQtyLink inv i v cpn now, 0 ≤ r.qty := by
  intro r hr
  simp only [setQtyLink, List.mem_map] at hr
  obtain ⟨r0, hr0, hre⟩ := hr
  rw [← hre]
  split
  · exact hv
  · exact h r0 hr0

theorem setLink_invqty (inv : List InvRecord) (i : Nat) (cpn : String)
    (h : ∀ r ∈ inv, 0 ≤ r.qty) :
    ∀ r ∈ setLink inv i cpn, 0 ≤ r.qty := by
  intro r hr
  simp only [setLink, List.mem_map] at hr
  obtain ⟨r0, hr0, hre⟩ := hr
  rw [← hre]
  split
  · exact h r0 hr0
  · exact h r0 hr0

/-- The return-to-inventory step preserves the quantity invariant when the
returned quantity is positive: an update adds the positive quantity to a
stored non-negative one, and a created record starts at the returned
quantity. -/
theorem updateInventory_invqty (now : Time) (st : St) (runId pid cpn n o : String)
    (qty : Int) (hq : 0 < qty) (h : InvQtyOK st) :
    InvQtyOK (updateInventoryFromReturn now st runId pid cpn n o qty).1 := by
  rw [updateInventoryFromReturn]
  rcases hd : matcherDecide st pid cpn n o with _ | _ | ⟨t, item⟩ | ⟨t, item⟩ | ⟨a, b, c, l⟩
  · exact h
  · exact h
  · intro r hr
    dsimp only [applyDecision] at hr
    rw [logSync_inventory] at hr
    split at hr
    · exact setLink_invqty st.inventory item.id cpn h r hr
    · exact h r hr
  · have hmem := matchedRecord_mem st.inventory _ _ _ _ t item
      (matcherDecide_doUpdate_inv st pid cpn n o t item hd)
    have hitem : 0 ≤ item.qty := h item hmem
    have hv : 0 ≤ item.qty + qty := by omega
    intro r hr
    dsimp only [applyDecision] at hr
    rw [logSync_inventory] at hr
    split at hr
    · exact setQtyLink_invqty st.inventory item.id (item.qty + qty) cpn now hv h r hr
    · exact setQty_invqty st.inventory item.id (item.qty + qty) now hv h r hr
  · intro r hr
    dsimp only [applyDecision] at hr
    rw [logSync_inventory] at hr
    rcases List.mem_append.mp hr with h1 | h1
    · exact h r h1
    · have : r = ⟨st.nextInvId, a, b, qty, c, l, none⟩ := by simpa using h1
      rw [this]
      exact hq.le

theorem processItem_invqty (now : Time) (st : St) (runId : String) (d : Detail)
    (ienv : ItemEnv) (hq : 0 < extractQty d) (h : InvQtyOK st) :
    InvQtyOK (processReturnedItem now st runId d ienv).st := by
  rcases processItem_inventory_char now st runId d ienv with hc | ⟨s, hs, hc⟩
  · exact invqty_of_inventory_eq _ st hc h
  · rw [hc]
    exact updateInventory_invqty now s runId d.productOrderId d.channelProductNo
      d.productName d.optionName (extractQty d) hq
      (invqty_of_inventory_eq s st hs h)

theorem removePendingRetryOrder_inventory (s : St) (pid : String) :
    (removePendingRetryOrder s pid).inventory = s.inventory := by
  simp only [removePendingRetryOrder]
  split
  · rfl
  · split
    · rw [setConfig_inventory]
    · rfl

theorem perItemLoop_invqty (now : Time) (runId : String) (ienv : String → ItemEnv)
    (details : List Detail) (st : St)
    (hq : ∀ d ∈ details, 0 < extractQty d) (h : InvQtyOK st) :
    InvQtyOK (perItemLoop now runId ienv details st).st := by
  unfold perItemLoop
  refine @foldl_preserve_mem _ _ (fun acc : LoopAcc => InvQtyOK acc.st) _ details ?_
    (⟨st, [], 0, 0⟩ : LoopAcc) h
  intro a dd hdd ha
  intro r hr
  simp only [perItemStep] at hr
  split at hr
  · rw [logSync_inventory] at hr
    exact processItem_invqty now a.st runId dd (ienv dd.productOrderId) (hq dd hdd) ha r hr
  · rw [removePendingRetryOrder_inventory] at hr
    exact processItem_invqty now a.st runId dd (ienv dd.productOrderId) (hq dd hdd) ha r hr

theorem detailOf_mem (env : Env) (id : String) (d : Detail)
    (h : detailOf env id = some d) : ∃ p ∈ env.details, p.2 = d := by
  unfold detailOf at h
  cases hf : env.details.find? (fun p => p.1 == id) with
  | none => rw [hf] at h; cases h
  | some p =>
    rw [hf] at h
    refine ⟨p, List.mem_of_find?_eq_some hf, ?_⟩
    simpa using h

/-- One cycle preserves the quantity invariant: the engine mutates stock
only through the return-to-inventory step, whose updates add a positive
returned quantity and whose created records start at the returned
quantity; the sales collectors never touch the inventory table. -/
theorem mainPath_invqty (st : St) (env : Env) (fetched : List String)
    (hwf : EnvWF env) (h : InvQtyOK st) :
    InvQtyOK (if (perItemLoop env.now env.runId env.itemEnv
          ((workListOf st fetched).filterMap (detailOf env))
          (preLoopState st env.runId (workListOf st fetched).length)).failed.isEmpty
        then (perItemLoop env.now env.runId env.itemEnv
          ((workListOf st fetched).filterMap (detailOf env))
          (preLoopState st env.runId (workListOf st fetched).length)).st
        else addPendingRetryOrders
          (perItemLoop env.now env.runId env.itemEnv
            ((workListOf st fetched).filterMap (detailOf env))
            (preLoopState st env.runId (workListOf st fetched).length)).st
          (perItemLoop env.now env.runId env.itemEnv
            ((workListOf st fetched).filterMap (detailOf env))
            (preLoopState st env.runId (workListOf st fetched).length)).failed) := by
  have hql : ∀ dd ∈ (workListOf st fetched).filterMap (detailOf env), 0 < extractQty dd := by
    intro dd hdd
    obtain ⟨id, _, hdo⟩ := List.mem_filterMap.mp hdd
    obtain ⟨p, hp, hpd⟩ := detailOf_mem env id dd hdo
    rw [← hpd]
    exact hwf p hp
  have hpre : InvQtyOK (preLoopState st env.runId (workListOf st fetched).length) := by
    intro r hr
    exact h r hr
  have hloop := perItemLoop_invqty env.now env.runId env.itemEnv _ _ hql hpre
  split
  · exact hloop
  · intro r hr
    rw [addPendingRetryOrders, setConfig_inventory] at hr
    exact hloop r hr

/-- One cycle preserves the quantity invariant: the engine mutates stock
only through the return-to-inventory step, whose updates add a positive
returned quantity and whose created records start at the returned
quantity; the sales collectors never touch the inventory table. -/
theorem runSync_invqty (st : St) (env : Env) (hwf : EnvWF env) (h : InvQtyOK st) :
    InvQtyOK (runSync st env).1 := by
  simp only [runSync]
  split
  · exact h
  · split
    · exact h
    · split
      · exact h
      · split
        · intro r hr
          simp only [fetchSalesData_inventory, setConfig_inventory, logSync_inventory] at hr
          exact h r hr
        · split
          · exact h
          · intro r hr
            simp only [fetchSalesData_inventory, setConfig_inventory] at hr
            exact mainPath_invqty st env _ hwf h r hr

/-- C2: every state the reconciliation engine can reach from a state whose
stock quantities are all non-negative, by running cycles whose returned
quantities are positive, again has all stock quantities non-negative. -/
theorem c2_quantity_invariant (st0 st : St) (h0 : InvQtyOK st0)
    (hr : EngineReach st0 st) : InvQtyOK st := by
  induction hr with
  | refl => exact h0
  | step stx env hx hwf ih => exact runSync_invqty stx env hwf ih

theorem c2_quantity_invariant_witness :
    (InvQtyOK w1St0 ∧ EngineReach w1St0 (runSync w1St0 wEnvTrivial).1)
    ∧ InvQtyOK (runSync w1St0 wEnvTrivial).1 :=
  ⟨⟨by unfold InvQtyOK; decide,
    EngineReach.step w1St0 wEnvTrivial EngineReach.refl
      (by intro p hp; simp [wEnvTrivial] at hp)⟩,
   c2_quantity_invariant w1St0 _ (by unfold InvQtyOK; decide)
     (EngineReach.step w1St0 wEnvTrivial EngineReach.refl
       (by intro p hp; simp [wEnvTrivial] at hp))⟩

/-! ## Lemmas about the retry ledger through a cycle -/

theorem getPending_congr (s1 s2 : St) (h : s1.config = s2.config) :
    getPendingRetryOrders s1 = getPendingRetryOrders s2 := by
  unfold getPendingRetryOrders getConfig
  rw [h]

theorem getPending_of_getConfig (s1 s2 : St)
    (h : getConfig s1 "pending_retry_orders" = getConfig s2 "pending_retry_orders") :
    getPendingRetryOrders s1 = getPendingRetryOrders s2 := by
  unfold getPendingRetryOrders
  rw [h]

/-- The per-item steps before the inventory step never touch the config
table, and neither does the inventory step itself, so per-item processing
leaves the whole config (watermarks and retry ledger) unchanged. -/
theorem processItem_config (now : Time) (st : St) (runId : String)
    (d : Detail) (ienv : ItemEnv) :
    (processReturnedItem now st runId d ienv).st.config = st.config := by
  simp only [processReturnedItem]
  repeat' split
  · rename_i st1 tr heq
    have h1 := congrArg (fun x : St × List BAction × Option BErr => x.1.config) heq
    dsimp only at h1
    rw [increaseStoreB_config] at h1
    rw [updateInventory_config, ← h1]
  · rename_i st1 fst heq1 x st3 tr heq
    have h1 := congrArg (fun x : St × List BAction × Option BErr => x.1.config) heq1
    dsimp only at h1
    rw [increaseStoreB_config] at h1
    have h2 := congrArg (fun x : St × List BAction × Bool => x.1.config) heq
    dsimp only at h2
    rw [copyCreate_config, resetMapping_config] at h2
    rw [updateInventory_config, ← h2, ← h1]
  · rename_i st1 fst heq1 x st3 tr heq
    have h1 := congrArg (fun x : St × List BAction × Option BErr => x.1.config) heq1
    dsimp only at h1
    rw [increaseStoreB_config] at h1
    have h2 := congrArg (fun x : St × List BAction × Bool => x.1.config) heq
    dsimp only at h2
    rw [copyCreate_config, resetMapping_config] at h2
    rw [← h2, ← h1]
  · rename_i st1 fst heq
    have h1 := congrArg (fun x : St × List BAction × Option BErr => x.1.config) heq
    dsimp only at h1
    rw [increaseStoreB_config] at h1
    rw [← h1]
  · rename_i st3 tr heq
    have h2 := congrArg (fun x : St × List BAction × Bool => x.1.config) heq
    dsimp only at h2
    rw [copyCreate_config] at h2
    rw [updateInventory_config, ← h2]
  · rename_i st3 tr heq
    have h2 := congrArg (fun x : St × List BAction × Bool => x.1.config) heq
    dsimp only at h2
    rw [copyCreate_config] at h2
    rw [← h2]
  · rename_i st3 tr heq
    have h2 := congrArg (fun x : St × List BAction × Bool => x.1.config) heq
    dsimp only at h2
    rw [copyCreate_config] at h2
    rw [updateInventory_config, ← h2]
  · rename_i st3 tr heq
    have h2 := congrArg (fun x : St × List BAction × Bool => x.1.config) heq
    dsimp only at h2
    rw [copyCreate_config] at h2
    rw [← h2]

theorem dedupAux_mem (a : String) : ∀ (l seen : List String),
    a ∈ l → a ∉ seen → a ∈ dedupAux seen l := by
  intro l
  induction l with
  | nil => intro seen h _; cases h
  | cons x xs ih =>
    intro seen hmem hns
    simp only [dedupAux]
    split
    · rename_i hc
      rcases List.mem_cons.mp hmem with heq | h
      · subst heq
        exact absurd (by simpa using hc) hns
      · exact ih seen h hns
    · rcases List.mem_cons.mp hmem with heq | h
      · subst heq
        exact List.mem_cons_self _ _
      · by_cases hax : a = x
        · subst hax
          exact List.mem_cons_self _ _
        · refine List.mem_cons_of_mem _ (ih (seen ++ [x]) h ?_)
          simp only [List.mem_append, List.mem_singleton]
          rintro (h1 | h1)
          · exact hns h1
          · exact hax h1

theorem dedupAux_mem_rev (a : String) : ∀ (l seen : List String),
    a ∈ dedupAux seen l → a ∈ l := by
  intro l
  induction l with
  | nil => intro seen h; cases h
  | cons x xs ih =>
    intro seen h
    simp only [dedupAux] at h
    split at h
    · exact List.mem_cons_of_mem _ (ih seen h)
    · rcases List.mem_cons.mp h with heq | h2
      · exact heq ▸ List.mem_cons_self _ _
      · exact List.mem_cons_of_mem _ (ih (seen ++ [x]) h2)

theorem mem_pending_after_add (st : St) (ids : List String) (x : String)
    (hx : x ∈ ids) :
    x ∈ getPendingRetryOrders (addPendingRetryOrders st ids) := by
  unfold addPendingRetryOrders getPendingRetryOrders
  rw [getConfig_setConfig_self]
  exact dedupAux_mem x _ [] (List.mem_append.mpr (Or.inr hx)) (by simp)

theorem pending_after_add_mem_rev (st : St) (ids : List String) (x : String)
    (hx : x ∈ getPendingRetryOrders (addPendingRetryOrders st ids)) :
    x ∈ getPendingRetryOrders st ∨ x ∈ ids := by
  unfold addPendingRetryOrders getPendingRetryOrders at hx
  rw [getConfig_setConfig_self] at hx
  exact List.mem_append.mp (dedupAux_mem_rev x _ [] hx)

theorem remove_pending_not_mem (s : St) (x : String) (hx : x ≠ "") :
    x ∉ getPendingRetryOrders (removePendingRetryOrder s x) := by
  have hxb : (x == "") = false := by simpa using hx
  simp only [removePendingRetryOrder, hxb, Bool.false_eq_true, if_false]
  split
  · unfold getPendingRetryOrders
    rw [getConfig_setConfig_self]
    intro hmem
    have := (List.mem_filter.mp hmem).2
    simp at this
  · rename_i hlen
    intro hmem
    apply hlen
    have hlt : (List.filter (fun y => y != x) (getPendingRetryOrders s)).length
        < (getPendingRetryOrders s).length := by
      apply List.length_filter_lt_length_iff_exists.mpr
      exact ⟨x, hmem, by simp⟩
    simp only [bne_iff_ne, ne_eq]
    omega

theorem remove_pending_subset (s : St) (p x : String)
    (hx : x ∈ getPendingRetryOrders (removePendingRetryOrder s p)) :
    x ∈ getPendingRetryOrders s := by
  simp only [removePendingRetryOrder] at hx
  split at hx
  · exact hx
  · split at hx
    · unfold getPendingRetryOrders at hx
      rw [getConfig_setConfig_self] at hx
      exact List.mem_of_mem_filter hx
    · exact hx

theorem mergeWork_mem_acc (pending : List String) : ∀ (acc : List String) (x : String),
    x ∈ acc →
    x ∈ pending.foldl (fun acc id => if acc.contains id then acc else acc ++ [id]) acc := by
  intro acc x hx
  refine @foldl_preserve _ _ (fun a : List String => x ∈ a) _ pending ?_ acc hx
  intro a b ha
  split
  · exact ha
  · exact List.mem_append_left _ ha

theorem mergeWork_mem_pending : ∀ (pending fetched : List String) (x : String),
    x ∈ pending → x ∈ mergeWork fetched pending := by
  intro pending
  induction pending with
  | nil => intro fetched x h; cases h
  | cons p ps ih =>
    intro fetched x hmem
    unfold mergeWork
    rw [List.foldl_cons]
    rcases List.mem_cons.mp hmem with heq | h
    · subst heq
      apply mergeWork_mem_acc
      split
      · rename_i hc
        simpa using hc
      · exact List.mem_append_right _ (List.mem_singleton.mpr rfl)
    · exact ih _ x h

theorem mem_workList_of_pending (st : St) (fetched : List String) (x : String)
    (hx : x ∈ getPendingRetryOrders st) : x ∈ workListOf st fetched :=
  mergeWork_mem_pending _ fetched x hx

theorem loop_failed_mono (now : Time) (runId : String) (ienv : String → ItemEnv)
    (details : List Detail) (acc : LoopAcc) (x : String) (hx : x ∈ acc.failed) :
    x ∈ (details.foldl (perItemStep now runId ienv) acc).failed := by
  refine @foldl_preserve _ _ (fun a : LoopAcc => x ∈ a.failed) _ details ?_ acc hx
  intro a b ha
  simp only [perItemStep]
  split
  · exact List.mem_append_left _ ha
  · exact ha

theorem loop_pending_mono (now : Time) (runId : String) (ienv : String → ItemEnv)
    (details : List Detail) (acc : LoopAcc) (x : String)
    (hx : x ∉ getPendingRetryOrders acc.st) :
    x ∉ getPendingRetryOrders (details.foldl (perItemStep now runId ienv) acc).st := by
  refine @foldl_preserve _ _ (fun a : LoopAcc => x ∉ getPendingRetryOrders a.st) _
    details ?_ acc hx
  intro a b ha
  simp only [perItemStep]
  split
  · rw [getPending_congr _ a.st (by rw [logSync_config, processItem_config])]
    exact ha
  · intro hmem
    apply ha
    have h2 := remove_pending_subset _ _ _ hmem
    rwa [getPending_congr _ a.st
      (processItem_config now a.st runId b (ienv b.productOrderId))] at h2

theorem loop_success_removed (now : Time) (runId : String) (ienv : String → ItemEnv) :
    ∀ (details : List Detail) (acc : LoopAcc) (x : String),
      x ≠ "" →
      (details.map (fun d => d.productOrderId)).Nodup →
      x ∈ details.map (fun d => d.productOrderId) →
      x ∉ (details.foldl (perItemStep now runId ienv) acc).failed →
      x ∉ getPendingRetryOrders (details.foldl (perItemStep now runId ienv) acc).st := by
  intro details
  induction details with
  | nil =>
    intro acc x _ _ hmem _
    simp at hmem
  | cons dd ds ih =>
    intro acc x hx hnd hmem hnf
    rw [List.foldl_cons] at hnf ⊢
    simp only [List.map_cons, List.nodup_cons] at hnd
    simp only [List.map_cons] at hmem
    rcases List.mem_cons.mp hmem with heq | hmem2
    · by_cases ht : (processReturnedItem now acc.st runId dd (ienv dd.productOrderId)).threw = true
      · exfalso
        apply hnf
        apply loop_failed_mono
        have hb : (dd.productOrderId != "") = true := by
          rw [← heq]
          simpa using hx
        simp only [perItemStep, ht, if_true, hb]
        exact List.mem_append_right _ (by rw [heq]; exact List.mem_singleton.mpr rfl)
      · have htf : (processReturnedItem now acc.st runId dd (ienv dd.productOrderId)).threw
            = false := by
          simpa using ht
        apply loop_pending_mono
        simp only [perItemStep, htf, Bool.false_eq_true, if_false]
        rw [heq]
        exact remove_pending_not_mem _ _ (heq ▸ hx)
    · exact ih (perItemStep now runId ienv acc dd) x hx hnd.2 hmem2 hnf

/-- After a cycle that reached per-item processing, the retry ledger of the
result state is the ledger of the post-loop state: the fail branch rewrites
it wholesale with the failed ids, the watermark write and the sales
collectors leave it alone. -/
theorem runSync_main_pending (st : St) (env : Env) (fetched : List String)
    (h1 : st.isRunning = false) (h2 : st.hasClients = true)
    (h3 : env.fetchReturns = .ok fetched) (h4 : env.detailsOk = true)
    (h5 : workListOf st fetched ≠ []) :
    getPendingRetryOrders (runSync st env).1
      = getPendingRetryOrders (if (mainAcc st env fetched).failed.isEmpty
          then (mainAcc st env fetched).st
          else addPendingRetryOrders (mainAcc st env fetched).st
            (mainAcc st env fetched).failed) := by
  have hr : (st.isRunning = true) = False := by simp [h1]
  have hc : ((!st.hasClients) = true) = False := by simp [h2]
  have hd : ((!env.detailsOk) = true) = False := by simp [h4]
  have hie : (workListOf st fetched).isEmpty = false := by
    simpa [List.isEmpty_iff] using h5
  simp only [runSync, hr, hc, hd, hie, if_false, h3, Bool.false_eq_true]
  refine getPending_of_getConfig _ _ ?_
  rw [getConfig_flags_update,
    fetchSalesData_getConfig_other _ _ _ (by decide) (by decide) (by decide) (by decide),
    getConfig_setConfig_ne _ _ _ _ (by decide)]
  simp only [mainAcc, perItemLoop]

/-- Every order line the per-item loop recorded as failed is in the retry
ledger after the cycle. -/
theorem runSync_failed_in_ledger (st : St) (env : Env) (fetched : List String)
    (x : String)
    (h1 : st.isRunning = false) (h2 : st.hasClients = true)
    (h3 : env.fetchReturns = .ok fetched) (h4 : env.detailsOk = true)
    (h5 : workListOf st fetched ≠ [])
    (hx : x ∈ (mainAcc st env fetched).failed) :
    x ∈ getPendingRetryOrders (runSync st env).1 := by
  rw [runSync_main_pending st env fetched h1 h2 h3 h4 h5]
  have hne : (mainAcc st env fetched).failed.isEmpty = false := by
    simpa [List.isEmpty_iff] using List.ne_nil_of_mem hx
  simp only [hne, Bool.false_eq_true, if_false]
  exact mem_pending_after_add _ _ _ hx

/-- Every order line that was in the cycle's work and whose processing did
not fail is absent from the retry ledger after the cycle. -/
theorem runSync_success_not_in_ledger (st : St) (env : Env) (fetched : List String)
    (y : String)
    (h1 : st.isRunning = false) (h2 : st.hasClients = true)
    (h3 : env.fetchReturns = .ok fetched) (h4 : env.detailsOk = true)
    (h5 : workListOf st fetched ≠ [])
    (hy0 : y ≠ "")
    (hynd : (((workListOf st fetched).filterMap (detailOf env)).map
      (fun d => d.productOrderId)).Nodup)
    (hymem : y ∈ ((workListOf st fetched).filterMap (detailOf env)).map
      (fun d => d.productOrderId))
    (hynf : y ∉ (mainAcc st env fetched).failed) :
    y ∉ getPendingRetryOrders (runSync st env).1 := by
  rw [runSync_main_pending st env fetched h1 h2 h3 h4 h5]
  have hrem := loop_success_removed env.now env.runId env.itemEnv
    ((workListOf st fetched).filterMap (detailOf env))
    (⟨preLoopState st env.runId (workListOf st fetched).length, [], 0, 0⟩ : LoopAcc)
    y hy0 hynd hymem (by simpa only [mainAcc, perItemLoop] using hynf)
  split
  · simpa only [mainAcc, perItemLoop] using hrem
  · intro hmem
    rcases pending_after_add_mem_rev _ _ _ hmem with h | h
    · exact absurd (by simpa only [mainAcc, perItemLoop] using h) hrem
    · exact hynf h

/-- C6: for a cycle that reaches per-item processing, every order line the
loop recorded as failed is in the retry ledger afterwards, and the ledger
is merged into any later work list even when the fetch window returns
nothing; every order line of the cycle's work whose processing did not
fail is absent from the ledger afterwards (in particular in cycles where
other items did fail — failures are isolated per item); and in the
fail-then-succeed scenario the identifier is in the ledger after cycle 1,
the work list of cycle 2 is exactly that identifier even though the fetch
is empty, the ledger is empty after cycle 2, and the matched record goes
from quantity 5 to quantity 7 — one net increment of the returned
quantity 2 across both cycles. -/
theorem c6_retry_ledger_convergence
    (st : St) (env : Env) (fetched : List String) (x : String)
    (st2 : St) (env2 : Env) (fetched2 : List String) (y : String)
    (st3 : St) (fetched3 : List String) (z : String)
    (h1 : st.isRunning = false) (h2 : st.hasClients = true)
    (h3 : env.fetchReturns = .ok fetched) (h4 : env.detailsOk = true)
    (h5 : workListOf st fetched ≠ [])
    (hx : x ∈ (mainAcc st env fetched).failed)
    (g1 : st2.isRunning = false) (g2 : st2.hasClients = true)
    (g3 : env2.fetchReturns = .ok fetched2) (g4 : env2.detailsOk = true)
    (g5 : workListOf st2 fetched2 ≠ [])
    (gy0 : y ≠ "")
    (gynd : (((workListOf st2 fetched2).filterMap (detailOf env2)).map
      (fun d => d.productOrderId)).Nodup)
    (gymem : y ∈ ((workListOf st2 fetched2).filterMap (detailOf env2)).map
      (fun d => d.productOrderId))
    (gynf : y ∉ (mainAcc st2 env2 fetched2).failed)
    (hz : z ∈ getPendingRetryOrders st3) :
    x ∈ getPendingRetryOrders (runSync st env).1
    ∧ y ∉ getPendingRetryOrders (runSync st2 env2).1
    ∧ z ∈ workListOf st3 fetched3
    ∧ (runSync w6St w6Env1).1.inventory = w6St.inventory
    ∧ getPendingRetryOrders (runSync w6St w6Env1).1 = ["A-6"]
    ∧ workListOf (runSync w6St w6Env1).1 [] = ["A-6"]
    ∧ getPendingRetryOrders (runSync (runSync w6St w6Env1).1 w6Env2).1 = []
    ∧ (((runSync (runSync w6St w6Env1).1 w6Env2).1.inventory.find?
        (fun r => r.id == 1)).map (fun r => r.qty)) = some 7
    ∧ ((w6St.inventory.find? (fun r => r.id == 1)).map (fun r => r.qty)) = some 5 :=
  ⟨runSync_failed_in_ledger st env fetched x h1 h2 h3 h4 h5 hx,
   runSync_success_not_in_ledger st2 env2 fetched2 y g1 g2 g3 g4 g5 gy0 gynd gymem gynf,
   mem_workList_of_pending st3 fetched3 z hz,
   by decide, by decide, by decide, by decide, by decide, by decide⟩

theorem c6_retry_ledger_convergence_witness :
    (w6St.isRunning = false ∧ w6St.hasClients = true
      ∧ w6Env1.fetchReturns = .ok ["A-6"] ∧ w6Env1.detailsOk = true
      ∧ workListOf w6St ["A-6"] ≠ []
      ∧ "A-6" ∈ (mainAcc w6St w6Env1 ["A-6"]).failed
      ∧ (runSync w6St w6Env1).1.isRunning = false
      ∧ (runSync w6St w6Env1).1.hasClients = true
      ∧ w6Env2.fetchReturns = .ok [] ∧ w6Env2.detailsOk = true
      ∧ workListOf (runSync w6St w6Env1).1 [] ≠ []
      ∧ ("A-6" : String) ≠ ""
      ∧ (((workListOf (runSync w6St w6Env1).1 []).filterMap (detailOf w6Env2)).map
          (fun d => d.productOrderId)).Nodup
      ∧ "A-6" ∈ ((workListOf (runSync w6St w6Env1).1 []).filterMap (detailOf w6Env2)).map
          (fun d => d.productOrderId)
      ∧ "A-6" ∉ (mainAcc (runSync w6St w6Env1).1 w6Env2 []).failed
      ∧ "A-6" ∈ getPendingRetryOrders (runSync w6St w6Env1).1)
    ∧ ("A-6" ∈ getPendingRetryOrders (runSync w6St w6Env1).1
      ∧ "A-6" ∉ getPendingRetryOrders (runSync (runSync w6St w6Env1).1 w6Env2).1
      ∧ "A-6" ∈ workListOf (runSync w6St w6Env1).1 []) :=
  ⟨⟨by decide, by decide, rfl, by decide, by decide, by decide, by decide,
    by decide, rfl, by decide, by decide, by decide, by decide, by decide,
    by decide, by decide⟩,
   (fun h => ⟨h.1, h.2.1, h.2.2.1⟩)
     (c6_retry_ledger_convergence w6St w6Env1 ["A-6"] "A-6"
       (runSync w6St w6Env1).1 w6Env2 [] "A-6"
       (runSync w6St w6Env1).1 [] "A-6"
       (by decide) (by decide) rfl (by decide) (by decide) (by decide)
       (by decide) (by decide) rfl (by decide) (by decide) (by decide)
       (by decide) (by decide) (by decide) (by decide))⟩

end Bluepie
